import Mathlib

/-!
Verification of the payment-authorization core of `labs-paywall-402`.

Shallow embedding of the pure core functions of the library:

* `paywall-helpers.ts` — `resolveChain`, `buildBalanceConfigs`,
  `normalizeAtomicAmount`, `isUserRejection`, `pickRequirement`,
  `buildBalanceError`;
* `utils.ts` — `parseNetworkChainId`, `encodeBase64Json`;
* `paywall-hooks.ts` — `useActionLock` (the ActionLock state machine),
  `useBalanceData` (balance aggregation), and the submitting step of
  `signPayment` (payment-header serialization).

Strings are modelled as `List Char`; JavaScript `number`/`bigint` values as
`Nat`/`Int` (the values occurring here — chain ids, token amounts, unix
timestamps — are integral and well below 2^53, where JS numbers are exact);
values that may be `null`/`undefined` as `Option`; code that can throw as
`Option`-returning functions (`none` = exception).
-/

namespace Paywall402


/-- Strings are modelled as lists of characters. -/
abbrev Str := List Char

/-- Opening brace character (written via `Char.ofNat` to keep string literals
plain). -/
def lbrace : Char := Char.ofNat 123

/-- Closing brace character. -/
def rbrace : Char := Char.ofNat 125

/-- ASCII lower-casing of a single character, as JS `toLowerCase` acts on the
ASCII range (the substrings compared in this code are ASCII). -/
def asciiToLower (c : Char) : Char :=
  if 'A' ≤ c ∧ c ≤ 'Z' then Char.ofNat (c.toNat + 32) else c

/-- ASCII lower-casing of a string. -/
def strLower (s : Str) : Str := s.map asciiToLower

/-- JS `hay.includes(sub)` for strings. -/
def containsSubstr : Str → Str → Bool
  | [], sub => sub.isEmpty
  | h :: t, sub => sub.isPrefixOf (h :: t) || containsSubstr t sub

/-- JS `String.prototype.split(c)` on character lists: splits at every
occurrence of `c`; the empty string splits to `[""]`. -/
def jsSplit (c : Char) : Str → List Str
  | [] => [[]]
  | x :: xs =>
    if x = c then [] :: jsSplit c xs
    else
      match jsSplit c xs with
      | [] => [[x]]
      | s :: rest => (x :: s) :: rest

/-- Decimal digit character of a value `< 10`. -/
def digitChar (n : Nat) : Char := Char.ofNat (48 + n)

/-- Decimal rendering of a natural number, fuel-indexed so that it is
structurally recursive (and hence evaluates inside `decide`). -/
def natToCharsCore : Nat → Nat → Str
  | 0, _ => []
  | fuel + 1, n =>
    if n < 10 then [digitChar n]
    else natToCharsCore fuel (n / 10) ++ [digitChar (n % 10)]

/-- Decimal rendering of a natural number (JS `Number/BigInt toString`). -/
def natToChars (n : Nat) : Str := natToCharsCore (n + 1) n

/-- Decimal rendering of an integer (JS `BigInt.prototype.toString`). -/
def intToChars (i : Int) : Str :=
  if i < 0 then '-' :: natToChars (-i).toNat else natToChars i.toNat

/-- Value of a digit string read in base 10 (JS `Number`/`BigInt` of an
all-digit string; exact, since the values in this code are below 2^53). -/
def digitsToNat (s : Str) : Nat :=
  s.foldl (fun acc c => acc * 10 + (c.toNat - 48)) 0

/-- JS `BigInt(s)` for `s` an optional minus sign followed by digits. -/
def jsBigIntOfDigits (s : Str) : Int :=
  if s.head? = some '-' then -(digitsToNat s.tail : Int)
  else (digitsToNat s : Int)

/-- Drop trailing `'0'` characters (JS `fraction.replace(/(0+)$/, '')`). -/
def dropTrailingZeros (l : Str) : Str :=
  (l.reverse.dropWhile (· = '0')).reverse

/-- Pad on the right with `'0'` up to length `n` (JS `padEnd(n, '0')`). -/
def padEndZeros (l : Str) (n : Nat) : Str :=
  l ++ List.replicate (n - l.length) '0'

/-- Test of viem's validation regex `^(-?)([0-9]*)\.?([0-9]*)$`: an optional
leading minus sign, then digits with at most one decimal point. -/
def decimalRegexTest (s : Str) : Bool :=
  let body := if s.head? = some '-' then s.tail else s
  body.all (fun c => c.isDigit || c == '.') && decide (body.count '.' ≤ 1)

/-- viem's `parseUnits(value, 6)`: parse a decimal numeral into an atomic
integer with 6 fractional digits.  `none` models the thrown
`InvalidDecimalNumberError` when the regex fails.  The rounding branch
(`fraction.length > 6` after trimming trailing zeros) uses `Math.round` on a
float in the source; it is modelled as exact round-half-up.  Every call from
`normalizeAtomicAmount` pre-truncates the fraction to at most 6 digits, so
that branch is unreachable from the embedded call sites. -/
def parseUnits6 (value : Str) : Option Int :=
  if decimalRegexTest value = false then none
  else
    let parts := jsSplit '.' value
    let integer := parts.headD []
    let fraction := ((parts.drop 1).head?).getD ['0']
    let negative := integer.head? = some '-'
    let integer := if negative then integer.drop 1 else integer
    let fraction := dropTrailingZeros fraction
    if 6 < fraction.length then
      let left := fraction.take 5
      let unit := (fraction.drop 5).take 1
      let right := fraction.drop 6
      let rounded :=
        digitsToNat unit + (if (right.headD '0').toNat ≥ 53 then 1 else 0)
      let fraction :=
        if 9 < rounded then
          let s := natToChars (digitsToNat left + 1) ++ ['0']
          List.replicate ((left.length + 1) - s.length) '0' ++ s
        else left ++ natToChars rounded
      let (integer, fraction) :=
        if 6 < fraction.length then
          (natToChars (digitsToNat integer + 1), fraction.drop 1)
        else (integer, fraction)
      let fraction := fraction.take 6
      some (jsBigIntOfDigits ((if negative then ['-'] else []) ++ integer ++ fraction))
    else
      let fraction := padEndZeros fraction 6
      some (jsBigIntOfDigits ((if negative then ['-'] else []) ++ integer ++ fraction))

/-- `normalizeAtomicAmount` from `paywall-helpers.ts`: `null`/empty input maps
to `null`; input without a decimal point is returned unchanged; otherwise the
fraction is truncated to 6 digits and converted via `parseUnits(·, 6)`, with a
manual zero-pad-and-concatenate fallback when `parseUnits` throws. -/
def normalizeAtomicAmount (amount : Option Str) : Option Str :=
  match amount with
  | none => none
  | some a =>
    if a = [] then none
    else if '.' ∈ a then
      let parts := jsSplit '.' a
      let whole := parts.headD []
      let fraction := ((parts.drop 1).head?).getD []
      let trimmedFraction := fraction.take 6
      let normalized := whole ++ '.' :: trimmedFraction
      match parseUnits6 normalized with
      | some v => some (intToChars v)
      | none =>
        let padded := (trimmedFraction ++ ['0', '0', '0', '0', '0', '0']).take 6
        let combined := (whole ++ padded).dropWhile (· = '0')
        some (if combined = [] then ['0'] else combined)
    else some a

/-- Try to match the regex `/eip155:(\d+)/i` at the head of the string:
`"eip155:"` case-insensitively, followed by at least one digit; the capture is
the maximal digit run. -/
def matchEip155At (s : Str) : Option Str :=
  match s with
  | c1 :: c2 :: c3 :: c4 :: c5 :: c6 :: c7 :: rest =>
    if strLower [c1, c2, c3, c4, c5, c6] = "eip155".toList ∧ c7 = ':' then
      let ds := rest.takeWhile Char.isDigit
      if ds = [] then none else some ds
    else none
  | _ => none

/-- Leftmost match of `/eip155:(\d+)/i` anywhere in the string. -/
def findEip155 : Str → Option Str
  | [] => none
  | x :: xs =>
    match matchEip155At (x :: xs) with
    | some ds => some ds
    | none => findEip155 xs

/-- `parseNetworkChainId` from `utils.ts`: extract the decimal chain id from a
network identifier of the form `eip155:<id>`, `null` for absent/empty input or
unrecognized formats. -/
def parseNetworkChainId (network : Option Str) : Option Nat :=
  match network with
  | none => none
  | some s =>
    if s = [] then none
    else
      match findEip155 s with
      | none => none
      | some ds => some (digitsToNat ds)

/-- `ChainConfig` from `types.ts`. -/
structure ChainConfig where
  chainId : Nat
  name : Str
  usdcAddress : Str
  rpcUrl : Str
  blockExplorer : Str
deriving DecidableEq

/-- `X402PaymentRequirement` from `types.ts` (fields not consulted by the
verified functions are omitted). -/
structure X402PaymentRequirement where
  scheme : Str
  network : Str
  maxAmountRequired : Str
  payTo : Str
  asset : Str
  maxTimeoutSeconds : Nat
deriving DecidableEq

/-- A `Record<string, ChainConfig>` modelled as an association list with
unique keys (first match wins on lookup). -/
abbrev ChainMap := List (Str × ChainConfig)

/-- JS record lookup `m[k]` (`undefined` when the key is absent). -/
def recordLookup (m : ChainMap) (k : Str) : Option ChainConfig :=
  (m.find? (fun p => p.1 = k)).map (·.2)

/-- The JS expression `chainConfigs?.[net] || DEFAULT_CHAIN_CONFIGS[net]`:
the caller map entry when present (config objects are always truthy), else
the built-in default map entry, else `undefined`. -/
def lookupOverride (chainConfigs : Option ChainMap) (defaults : ChainMap)
    (net : Str) : Option ChainConfig :=
  match chainConfigs with
  | some m =>
    match recordLookup m net with
    | some c => some c
    | none => recordLookup defaults net
  | none => recordLookup defaults net

/-- `resolveChain` from `paywall-helpers.ts`.  The built-in
`DEFAULT_CHAIN_CONFIGS` constant lives in `constants.ts`, outside the sources
at hand; it is passed as the explicit `defaults` parameter, and every theorem
below holds for an arbitrary value of it. -/
def resolveChain (defaults : ChainMap) (requirement : Option X402PaymentRequirement)
    (chainConfig : Option ChainConfig) (chainConfigs : Option ChainMap) :
    Option ChainConfig :=
  match chainConfig with
  | some cfg =>
    match requirement with
    | some r =>
      if r.network = [] then some cfg
      else
        match parseNetworkChainId (some r.network) with
        | some rid =>
          -- JS `if (requirementChainId && requirementChainId !== chainConfig.chainId)`:
          -- a chain id of 0 is falsy and falls through to the supplied config
          if rid ≠ 0 ∧ rid ≠ cfg.chainId then
            lookupOverride chainConfigs defaults r.network
          else some cfg
        | none => some cfg
    | none => some cfg
  | none =>
    match requirement with
    | some r =>
      if r.network = [] then none
      else lookupOverride chainConfigs defaults r.network
    | none => none

/-- `pickRequirement` from `paywall-helpers.ts`; `acceptIndex` is modelled as
an integer (on integers `Number.isFinite` is true and `Math.trunc` is the
identity). -/
def pickRequirement (accepts : List X402PaymentRequirement) (acceptIndex : Int) :
    Option X402PaymentRequirement :=
  if accepts.length = 0 then none
  else if 0 ≤ acceptIndex ∧ acceptIndex < accepts.length then
    accepts[acceptIndex.toNat]?
  else accepts[0]?

/-- The `message` field of a heterogeneous JS error value: absent
(`undefined`/`null`), a string, or some truthy non-string value (on which the
source's `message?.toLowerCase()` throws a `TypeError`). -/
inductive MsgVal where
  | str (s : Str)
  | nonString
deriving DecidableEq

/-- A heterogeneous JS error value, as far as `isUserRejection` inspects it:
either a falsy value (`null`, `undefined`, `0`, `''`, `false`, `NaN`) or a
truthy value with its `instanceof` classification and `code`/`name`/`message`
fields.  A non-numeric `code` or non-string `name` compares `false` under the
source's strict equality and is modelled as `none`. -/
inductive JsError where
  | nullish
  | value (instUserRejected instTxRejected : Bool) (code : Option Int)
      (name : Option Str) (message : Option MsgVal)
deriving DecidableEq

/-- `isUserRejection` from `paywall-helpers.ts`.  The result is
`Except Unit Bool`: `.error ()` models the `TypeError` thrown by
`err.message?.toLowerCase()` when `message` is a truthy non-string. -/
def isUserRejection (e : JsError) : Except Unit Bool :=
  match e with
  | .nullish => .ok false
  | .value instUser instTx code name message =>
    if instUser || instTx then .ok true
    else if code = some 4001 then .ok true
    else if name = some "UserRejectedRequestError".toList ∨
        name = some "TransactionRejectedRpcError".toList then .ok true
    else
      match message with
      | none => .ok false
      | some (.str m) =>
        .ok (containsSubstr (strLower m) "user rejected".toList)
      | some .nonString => .error ()

/-- State of `useActionLock` from `paywall-hooks.ts`: the `actionLockRef`
boolean, the monotonically increasing `actionNonceRef` token counter, and the
mirrored `isActionBusy` React state. -/
structure LockState where
  lock : Bool
  nonce : Nat
  busy : Bool
deriving DecidableEq

/-- The initial lock state (`useRef(false)`, `useRef(0)`, `useState(false)`). -/
def initLockState : LockState := { lock := false, nonce := 0, busy := false }

/-- `beginAction`: `null` if an action is already in flight, otherwise take
the lock and return the freshly bumped token. -/
def beginAction (s : LockState) : Option Nat × LockState :=
  if s.lock then (none, s)
  else (some (s.nonce + 1), { lock := true, nonce := s.nonce + 1, busy := true })

/-- `endAction`: release the lock (the token counter is left untouched). -/
def endAction (s : LockState) : LockState :=
  { s with lock := false, busy := false }

/-- `isActionStale`: a token is stale iff it is no longer the current nonce. -/
def isActionStale (s : LockState) (actionId : Nat) : Bool :=
  s.nonce ≠ actionId

/-- `resetAction`: bump the token (staling every outstanding one) and
forcibly release the lock. -/
def resetAction (s : LockState) : LockState :=
  { lock := false, nonce := s.nonce + 1, busy := false }

/-- One call in a client-visible sequence of lock operations. -/
inductive LockOp where
  | beginOp
  | endOp
  | resetOp
deriving DecidableEq

/-- Execute one lock operation; only `beginAction` produces a return value. -/
def lockStep (s : LockState) : LockOp → Option Nat × LockState
  | .beginOp => beginAction s
  | .endOp => (none, endAction s)
  | .resetOp => (none, resetAction s)

/-- Run a sequence of lock operations, collecting per-call outputs
(`beginAction`'s returned token at its position, `none` elsewhere). -/
def runLock (s : LockState) : List LockOp → List (Option Nat) × LockState
  | [] => ([], s)
  | op :: rest =>
    let (out, s1) := lockStep s op
    let (outs, s2) := runLock s1 rest
    (out :: outs, s2)

/-- A JSON value, as far as the payment payload needs: strings, numbers and
objects with insertion-ordered fields. -/
inductive Json where
  | jstr (s : Str)
  | jnum (n : Int)
  | jobj (fields : List (Str × Json))

/-- Hexadecimal digit character (lower case), for `\u00XX` escapes. -/
def hexDigit (n : Nat) : Char :=
  if n < 10 then Char.ofNat (48 + n) else Char.ofNat (87 + n)

/-- `JSON.stringify` escaping of a single character inside a string literal:
quote and backslash are backslash-escaped, control characters use the named
escapes or `\u00XX`. -/
def jsonEscapeChar (c : Char) : Str :=
  if c = '"' then ['\\', '"']
  else if c = '\\' then ['\\', '\\']
  else if c = Char.ofNat 8 then ['\\', 'b']
  else if c = Char.ofNat 9 then ['\\', 't']
  else if c = Char.ofNat 10 then ['\\', 'n']
  else if c = Char.ofNat 12 then ['\\', 'f']
  else if c = Char.ofNat 13 then ['\\', 'r']
  else if c.toNat < 32 then
    ['\\', 'u', '0', '0', hexDigit (c.toNat / 16), hexDigit (c.toNat % 16)]
  else [c]

/-- A JSON string literal: quoted, with every character escaped as
`JSON.stringify` does. -/
def jsonStrLit (s : Str) : Str :=
  '"' :: s.flatMap jsonEscapeChar ++ ['"']

mutual

/-- `JSON.stringify` of a JSON value. -/
def jsonStringify : Json → Str
  | .jstr s => jsonStrLit s
  | .jnum n => intToChars n
  | .jobj fields => lbrace :: jsonFields fields ++ [rbrace]

/-- `JSON.stringify` of an object's field list: `"key":value` pieces joined
with commas. -/
def jsonFields : List (Str × Json) → Str
  | [] => []
  | [(k, v)] => jsonStrLit k ++ ':' :: jsonStringify v
  | (k, v) :: kv :: rest =>
    jsonStrLit k ++ ':' :: jsonStringify v ++ ',' :: jsonFields (kv :: rest)

end

/-- The base64 alphabet. -/
def base64Table : Str :=
  "ABCDEFGHIJKLMNOPQRSTUVWXYZabcdefghijklmnopqrstuvwxyz0123456789+/".toList

/-- The base64 digit for a 6-bit value. -/
def b64Char (n : Nat) : Char := base64Table.getD n 'A'

/-- Standard base64 encoding of a byte sequence with `=` padding. -/
def base64Encode : List Nat → Str
  | [] => []
  | [a] => [b64Char (a / 4), b64Char (a % 4 * 16), '=', '=']
  | [a, b] => [b64Char (a / 4), b64Char (a % 4 * 16 + b / 16), b64Char (b % 16 * 4), '=']
  | a :: b :: c :: rest =>
    b64Char (a / 4) :: b64Char (a % 4 * 16 + b / 16) ::
      b64Char (b % 16 * 4 + c / 64) :: b64Char (c % 64) :: base64Encode rest

/-- JS `btoa`: base64 of the string's code units; throws (here `none`) when a
code unit exceeds 255. -/
def btoa (s : Str) : Option Str :=
  if s.all (fun c => c.toNat < 256) then some (base64Encode (s.map Char.toNat))
  else none

/-- `encodeBase64Json` from `utils.ts`: `btoa(JSON.stringify(value))`. -/
def encodeBase64Json (value : Json) : Option Str :=
  btoa (jsonStringify value)

/-- An HTTP header map (`Headers`): an association list whose names are kept
lower-cased, since `Headers` is case-insensitive on names. -/
abbrev HeaderMap := List (Str × Str)

/-- `Headers.prototype.set`: replace the value of an existing name in place,
otherwise append. -/
def headersSet (hs : HeaderMap) (k v : Str) : HeaderMap :=
  let k' := strLower k
  if hs.any (fun p => p.1 = k') then
    hs.map (fun p => if p.1 = k' then (p.1, v) else p)
  else hs ++ [(k', v)]

/-- `Headers.prototype.get` (case-insensitive on the name). -/
def headersGet (hs : HeaderMap) (k : Str) : Option Str :=
  (hs.find? (fun p => p.1 = strLower k)).map (·.2)

/-- The payment payload object built by `signPayment` in `paywall-hooks.ts`
(field order is the object-literal insertion order; `value`, `validAfter` and
`validBefore` are bigints rendered with `.toString()`). -/
def paymentPayloadJson (x402Version : Int) (scheme network signature : Str)
    (fromAddr toAddr : Str) (value validAfter validBefore : Int)
    (nonce : Str) : Json :=
  .jobj
    [("x402Version".toList, .jnum x402Version),
     ("scheme".toList, .jstr scheme),
     ("network".toList, .jstr network),
     ("payload".toList,
      .jobj
        [("signature".toList, .jstr signature),
         ("authorization".toList,
          .jobj
            [("from".toList, .jstr fromAddr),
             ("to".toList, .jstr toAddr),
             ("value".toList, .jstr (intToChars value)),
             ("validAfter".toList, .jstr (intToChars validAfter)),
             ("validBefore".toList, .jstr (intToChars validBefore)),
             ("nonce".toList, .jstr nonce)])])]

/-- The submitting step of `signPayment` in `paywall-hooks.ts`: serialize the
payment payload with `encodeBase64Json`, then set `X-PAYMENT-SIGNATURE`,
`PAYMENT-SIGNATURE` and `Accept` on the caller's request headers.  `none`
models the (uncaught inside this step) `btoa` exception, which aborts the
submission. -/
def buildPaymentSubmission (x402Version : Int) (scheme network signature : Str)
    (fromAddr toAddr : Str) (value validAfter validBefore : Int) (nonce : Str)
    (initHeaders : HeaderMap) : Option (Str × HeaderMap) :=
  let payload := paymentPayloadJson x402Version scheme network signature
    fromAddr toAddr value validAfter validBefore nonce
  match encodeBase64Json payload with
  | none => none
  | some paymentHeader =>
    let headers :=
      headersSet
        (headersSet
          (headersSet initHeaders "X-PAYMENT-SIGNATURE".toList paymentHeader)
          "PAYMENT-SIGNATURE".toList paymentHeader)
        "Accept".toList "application/json".toList
    some (paymentHeader, headers)

/-- `BalanceConfigEntry` from `paywall-helpers.ts`. -/
structure BalanceConfigEntry where
  accept : X402PaymentRequirement
  config : Option ChainConfig
  usdcAddress : Option Str
  error : Option Str
deriving DecidableEq

/-- `BalanceInfo` from `types.ts`.  The `balance` field is the exact decimal
string produced by `formatUnits`; the source wraps it in `Number(...)` for
display, a floating-point coercion outside this claim's scope. -/
structure BalanceInfo where
  network : Str
  chainName : Str
  balance : Option Str
  error : Option Str
deriving DecidableEq

/-- `buildBalanceError` from `paywall-helpers.ts`. -/
def buildBalanceError (entry : BalanceConfigEntry) (message : Str) : BalanceInfo :=
  { network := entry.accept.network
    chainName := (entry.config.map (·.name)).getD "Unknown chain".toList
    balance := none
    error := some message }

/-- `buildBalanceConfigs` from `paywall-helpers.ts`.  viem's `getAddress`
(hex/checksum validation via Keccak-256) is treated as an oracle parameter
`getAddr` (`none` = it throws); the theorems hold for every behaviour of it. -/
def buildBalanceConfigs (getAddr : Str → Option Str) (defaults : ChainMap)
    (accepts : List X402PaymentRequirement) (chainConfig : Option ChainConfig)
    (chainConfigs : Option ChainMap) : List BalanceConfigEntry :=
  accepts.map fun accept =>
    match resolveChain defaults (some accept) chainConfig chainConfigs with
    | none =>
      { accept := accept, config := none, usdcAddress := none
        error := some "Missing chain configuration".toList }
    | some config =>
      match getAddr config.usdcAddress with
      | some usdcAddress =>
        { accept := accept, config := some config
          usdcAddress := some usdcAddress, error := none }
      | none =>
        { accept := accept, config := some config, usdcAddress := none
          error := some "Invalid USDC address".toList }

/-- One entry in the `useReadContracts` call list built by `useBalanceData`. -/
structure ContractCall where
  address : Str
  functionName : Str
  args : Option Str
  chainId : Nat
deriving DecidableEq

/-- The guard `!entry.config || entry.error || !entry.usdcAddress` from
`useBalanceData`, negated: the entry is complete and error-free. -/
def isValidEntry (e : BalanceConfigEntry) : Bool :=
  match e.config, e.error, e.usdcAddress with
  | some _, none, some _ => true
  | _, _, _ => false

/-- The two contract calls (`balanceOf`, `decimals`) one valid entry
contributes to the batched read. -/
def entryCalls (address : Str) (e : BalanceConfigEntry) : List ContractCall :=
  match e.config, e.error, e.usdcAddress with
  | some cfg, none, some usdc =>
    [{ address := usdc, functionName := "balanceOf".toList
       args := some address, chainId := cfg.chainId },
     { address := usdc, functionName := "decimals".toList
       args := none, chainId := cfg.chainId }]
  | _, _, _ => []

/-- The `balanceContracts` memo of `useBalanceData`: no calls without a
connected address, else each valid entry contributes its two calls in entry
order. -/
def balanceContracts (address : Option Str) (entries : List BalanceConfigEntry) :
    List ContractCall :=
  match address with
  | none => []
  | some a => entries.flatMap (entryCalls a)

/-- The raw `result` field of one `useReadContracts` item: a bigint, a JS
number (integral here: the on-chain types are `uint256`/`uint8`), or a value
of any other type. -/
inductive RawResult where
  | big (i : Int)
  | num (n : Int)
  | other
deriving DecidableEq

/-- The `typeof x === 'bigint' || typeof x === 'number'` check plus the
subsequent numeric conversion. -/
def rawToInt : Option RawResult → Option Int
  | some (.big i) => some i
  | some (.num n) => some n
  | _ => none

/-- Status of one `useReadContracts` item. -/
inductive CallStatus where
  | success
  | failure
deriving DecidableEq

/-- One item of `balanceQuery.data` (`allowFailure: true`): a status, an
optional raw result, and an optional error value (`some (some m)` = an
`Error` instance with message `m`, `some none` = a thrown non-`Error`). -/
structure CallResult where
  status : CallStatus
  result : Option RawResult
  error : Option (Option Str)
deriving DecidableEq

/-- viem's `formatUnits(value, decimals)`: insert a decimal point `decimals`
digits from the right, trimming trailing fractional zeros.  `decimals` is an
`Int` because the embedding quantifies over arbitrary per-call results; the
JS `slice`/`padStart` clamping is reproduced. -/
def formatUnitsStr (value : Int) (decimals : Int) : Str :=
  let display := intToChars value
  let negative := display.head? = some '-'
  let display := if negative then display.drop 1 else display
  let display := List.replicate (decimals.toNat - display.length) '0' ++ display
  let cut := (display.length : Int) - decimals
  let integer := display.take cut.toNat
  let fraction := dropTrailingZeros (display.drop cut.toNat)
  (if negative then ['-'] else []) ++
    (if integer = [] then ['0'] else integer) ++
    (if fraction = [] then [] else '.' :: fraction)

/-- The per-entry processing of a valid entry's `(balanceOf, decimals)`
result pair inside the `balances` memo of `useBalanceData`. -/
def processValid (e : BalanceConfigEntry) (cfg : ChainConfig)
    (balanceResult decimalsResult : Option CallResult) : BalanceInfo :=
  match balanceResult, decimalsResult with
  | some b, some d =>
    if b.status = .failure ∨ d.status = .failure then
      let err := if b.status = .failure then b.error else d.error
      buildBalanceError e
        (match err with
         | some (some m) => m
         | _ => "Failed to fetch balance".toList)
    else
      match rawToInt d.result, rawToInt b.result with
      | some decimalsValue, some balanceValue =>
        { network := e.accept.network, chainName := cfg.name
          balance := some (formatUnitsStr balanceValue decimalsValue)
          error := none }
      | _, _ => buildBalanceError e "Balance unavailable".toList
  | _, _ => buildBalanceError e "Balance unavailable".toList

/-- The output `BalanceInfo` of one entry, given the (suffix of the) result
array starting at the entry's own slot. -/
def entryOutput (e : BalanceConfigEntry) (d : List CallResult) : BalanceInfo :=
  match e.config, e.error, e.usdcAddress with
  | some cfg, none, some _ => processValid e cfg d[0]? d[1]?
  | _, _, _ =>
    buildBalanceError e (e.error.getD "Missing chain configuration".toList)

/-- The loop of the `balances` memo: valid entries consume two consecutive
result slots, invalid entries consume none. -/
def processEntries : List BalanceConfigEntry → List CallResult → List BalanceInfo
  | [], _ => []
  | e :: rest, d =>
    entryOutput e d ::
      processEntries rest (if isValidEntry e then d.drop 2 else d)

/-- The `balances` memo of `useBalanceData`: empty when balances are disabled,
no address is connected or there are no entries; only the resolution-error
entries while the query has not produced data; otherwise one `BalanceInfo`
per entry. -/
def useBalanceDataBalances (showBalances : Bool) (address : Option Str)
    (entries : List BalanceConfigEntry) (queryData : Option (List CallResult)) :
    List BalanceInfo :=
  if ¬showBalances ∨ address = none ∨ entries = [] then []
  else
    match queryData with
    | none =>
      (entries.filter (fun e => e.config = none ∨ e.error ≠ none)).map
        (fun e => buildBalanceError e (e.error.getD "Missing chain configuration".toList))
    | some d => processEntries entries d

/-- The result-array slot index of entry `i`: two slots for every valid
earlier entry. -/
def slotIndex (entries : List BalanceConfigEntry) (i : Nat) : Nat :=
  2 * ((entries.take i).filter isValidEntry).length

/-- A non-negative base-10 integer string: nonempty, all decimal digits. -/
def isNonNegIntegerStr (s : Str) : Bool := !s.isEmpty && s.all Char.isDigit

/-- The payment-header JSON text as §6 of the spec describes it: an object
with keys `x402Version, scheme, network, payload` in that order, the payload
holding `signature` and an `authorization` object with
`from, to, value, validAfter, validBefore, nonce`, the three numeric fields
rendered as decimal strings.  Written as explicit text concatenation. -/
def specPaymentJson (x402Version : Int) (scheme network signature : Str)
    (fromAddr toAddr : Str) (value validAfter validBefore : Int)
    (nonce : Str) : Str :=
  [lbrace] ++ jsonStrLit "x402Version".toList ++ [':'] ++ intToChars x402Version ++
  [','] ++ jsonStrLit "scheme".toList ++ [':'] ++ jsonStrLit scheme ++
  [','] ++ jsonStrLit "network".toList ++ [':'] ++ jsonStrLit network ++
  [','] ++ jsonStrLit "payload".toList ++ [':'] ++ [lbrace] ++
  jsonStrLit "signature".toList ++ [':'] ++ jsonStrLit signature ++
  [','] ++ jsonStrLit "authorization".toList ++ [':'] ++ [lbrace] ++
  jsonStrLit "from".toList ++ [':'] ++ jsonStrLit fromAddr ++
  [','] ++ jsonStrLit "to".toList ++ [':'] ++ jsonStrLit toAddr ++
  [','] ++ jsonStrLit "value".toList ++ [':'] ++ jsonStrLit (intToChars value) ++
  [','] ++ jsonStrLit "validAfter".toList ++ [':'] ++
  jsonStrLit (intToChars validAfter) ++
  [','] ++ jsonStrLit "validBefore".toList ++ [':'] ++
  jsonStrLit (intToChars validBefore) ++
  [','] ++ jsonStrLit "nonce".toList ++ [':'] ++ jsonStrLit nonce ++
  [rbrace, rbrace, rbrace]

/-- The payment payload object built by the legacy `X402Paywall` component's
`signPayment` in `Paywall.tsx`: `x402Version` is hard-coded to `2`, there are
no top-level `scheme`/`network` keys, and the whole selected requirement
(`accepted`, an arbitrary JSON object from the parsed 402 response) and the
response's `resource` are embedded instead.  `JSON.stringify` drops the
`resource` key when the field is `undefined`. -/
def legacyPaymentPayloadJson (signature fromAddr toAddr : Str)
    (value validAfter validBefore : Int) (nonce : Str) (accepted : Json)
    (resource : Option Json) : Json :=
  .jobj
    ([("x402Version".toList, .jnum 2),
      ("payload".toList,
       .jobj
         [("signature".toList, .jstr signature),
          ("authorization".toList,
           .jobj
             [("from".toList, .jstr fromAddr),
              ("to".toList, .jstr toAddr),
              ("value".toList, .jstr (intToChars value)),
              ("validAfter".toList, .jstr (intToChars validAfter)),
              ("validBefore".toList, .jstr (intToChars validBefore)),
              ("nonce".toList, .jstr nonce)])]),
      ("accepted".toList, accepted)] ++
     (match resource with
      | some r => [("resource".toList, r)]
      | none => []))

/-- The submitting step of the legacy `X402Paywall.signPayment` in
`Paywall.tsx`: serialize the legacy payload with `encodeBase64Json`, then set
the same three headers as the hooks implementation. -/
def buildPaymentSubmissionLegacy (signature fromAddr toAddr : Str)
    (value validAfter validBefore : Int) (nonce : Str) (accepted : Json)
    (resource : Option Json) (initHeaders : HeaderMap) :
    Option (Str × HeaderMap) :=
  let payload := legacyPaymentPayloadJson signature fromAddr toAddr value
    validAfter validBefore nonce accepted resource
  match encodeBase64Json payload with
  | none => none
  | some paymentHeader =>
    let headers :=
      headersSet
        (headersSet
          (headersSet initHeaders "X-PAYMENT-SIGNATURE".toList paymentHeader)
          "PAYMENT-SIGNATURE".toList paymentHeader)
        "Accept".toList "application/json".toList
    some (paymentHeader, headers)

/-- The legacy payment-header JSON text, written as explicit concatenation:
`x402Version` fixed at `2`, then `payload` (signature plus authorization with
its numeric fields as decimal strings), then the embedded `accepted` object,
then `resource` when present — and no `scheme`/`network` keys. -/
def specLegacyPaymentJson (signature fromAddr toAddr : Str)
    (value validAfter validBefore : Int) (nonce : Str) (accepted : Json)
    (resource : Option Json) : Str :=
  [lbrace] ++ jsonStrLit "x402Version".toList ++ [':'] ++ intToChars 2 ++
  [','] ++ jsonStrLit "payload".toList ++ [':'] ++ [lbrace] ++
  jsonStrLit "signature".toList ++ [':'] ++ jsonStrLit signature ++
  [','] ++ jsonStrLit "authorization".toList ++ [':'] ++ [lbrace] ++
  jsonStrLit "from".toList ++ [':'] ++ jsonStrLit fromAddr ++
  [','] ++ jsonStrLit "to".toList ++ [':'] ++ jsonStrLit toAddr ++
  [','] ++ jsonStrLit "value".toList ++ [':'] ++ jsonStrLit (intToChars value) ++
  [','] ++ jsonStrLit "validAfter".toList ++ [':'] ++
  jsonStrLit (intToChars validAfter) ++
  [','] ++ jsonStrLit "validBefore".toList ++ [':'] ++
  jsonStrLit (intToChars validBefore) ++
  [','] ++ jsonStrLit "nonce".toList ++ [':'] ++ jsonStrLit nonce ++
  [rbrace, rbrace] ++
  [','] ++ jsonStrLit "accepted".toList ++ [':'] ++ jsonStringify accepted ++
  (match resource with
   | some r => [','] ++ jsonStrLit "resource".toList ++ [':'] ++ jsonStringify r
   | none => []) ++
  [rbrace]

/-- Requirement selection in the legacy `X402Paywall` component
(`Paywall.tsx`): `accepts[acceptIndex]` directly — a JS array access that
yields `undefined` for any out-of-range index, with no fallback. -/
def x402PaywallRequirement (accepts : List X402PaymentRequirement)
    (acceptIndex : Int) : Option X402PaymentRequirement :=
  if 0 ≤ acceptIndex ∧ acceptIndex < accepts.length then
    accepts[acceptIndex.toNat]?
  else none

/-! ## Theorems -/

/-- `jsSplit` never returns the empty list. -/
theorem jsSplit_ne_nil (c : Char) (l : Str) : jsSplit c l ≠ [] := by
  induction l with
  | nil => simp [jsSplit]
  | cons x xs ih =>
    simp only [jsSplit]
    split
    · simp
    · split
      · simp
      · simp

/-- If the separator does not occur, `jsSplit` returns the singleton list. -/
theorem jsSplit_of_not_mem (c : Char) (l : Str) (h : c ∉ l) :
    jsSplit c l = [l] := by
  induction l with
  | nil => rfl
  | cons x xs ih =>
    simp only [List.mem_cons, not_or] at h
    simp only [jsSplit]
    rw [if_neg (fun hxc => h.1 hxc.symm), ih h.2]

/-- Splitting `a ++ c :: b` where `c` does not occur in `a` yields `a`
followed by the splitting of `b`. -/
theorem jsSplit_append (c : Char) (a b : Str) (ha : c ∉ a) :
    jsSplit c (a ++ c :: b) = a :: jsSplit c b := by
  induction a with
  | nil => simp [jsSplit]
  | cons x xs ih =>
    simp only [List.mem_cons, not_or] at ha
    simp only [List.cons_append, jsSplit]
    rw [if_neg (fun hxc => ha.1 hxc.symm)]
    rw [show xs.append (c :: b) = xs ++ c :: b from rfl, ih ha.2]

/-- Every character of every piece of `jsSplit c l` occurs in `l` and is not
the separator. -/
theorem jsSplit_mem_mem (c : Char) (l : Str) :
    ∀ s ∈ jsSplit c l, ∀ x ∈ s, x ∈ l ∧ x ≠ c := by
  induction l with
  | nil => intro s hs x hx; simp [jsSplit] at hs; simp [hs] at hx
  | cons y ys ih =>
    intro s hs x hx
    simp only [jsSplit] at hs
    by_cases hyc : y = c
    · rw [if_pos hyc] at hs
      rcases List.mem_cons.mp hs with h | h
      · simp [h] at hx
      · have := ih s h x hx
        exact ⟨List.mem_cons_of_mem y this.1, this.2⟩
    · rw [if_neg hyc] at hs
      cases hys : jsSplit c ys with
      | nil => exact absurd hys (jsSplit_ne_nil c ys)
      | cons s0 rest =>
        rw [hys] at hs
        rcases List.mem_cons.mp hs with h | h
        · subst h
          rcases List.mem_cons.mp hx with h | h
          · subst h; exact ⟨List.mem_cons_self x ys, hyc⟩
          · have := ih s0 (by rw [hys]; exact List.mem_cons_self s0 rest) x h
            exact ⟨List.mem_cons_of_mem y this.1, this.2⟩
        · have := ih s (by rw [hys]; exact List.mem_cons_of_mem s0 h) x hx
          exact ⟨List.mem_cons_of_mem y this.1, this.2⟩

theorem natToCharsCore_spec (fuel : Nat) :
    ∀ n, n < fuel →
      natToCharsCore fuel n ≠ [] ∧ ∀ c ∈ natToCharsCore fuel n, c.isDigit := by
  induction fuel with
  | zero => intro n hn; omega
  | succ f ih =>
    intro n _
    by_cases h : n < 10
    · refine ⟨by simp [natToCharsCore, h], ?_⟩
      intro c hc
      simp only [natToCharsCore, if_pos h, List.mem_singleton] at hc
      subst hc
      have : ∀ m, m < 10 → (digitChar m).isDigit := by decide
      exact this n h
    · have hdiv : n / 10 < f := by
        have h1 : n / 10 < n := Nat.div_lt_self (by omega) (by omega)
        omega
      have := ih (n / 10) hdiv
      refine ⟨by simp [natToCharsCore, h], ?_⟩
      intro c hc
      simp only [natToCharsCore, if_neg h, List.mem_append, List.mem_singleton] at hc
      rcases hc with hc | hc
      · exact this.2 c hc
      · subst hc
        have h10 : n % 10 < 10 := Nat.mod_lt _ (by omega)
        have : ∀ m, m < 10 → (digitChar m).isDigit := by decide
        exact this _ h10

/-- `natToChars` always produces a nonempty string. -/
theorem natToChars_ne_nil (n : Nat) : natToChars n ≠ [] :=
  (natToCharsCore_spec (n + 1) n (Nat.lt_succ_self n)).1

/-- `natToChars` produces only decimal digits. -/
theorem natToChars_digits (n : Nat) : ∀ c ∈ natToChars n, c.isDigit :=
  (natToCharsCore_spec (n + 1) n (Nat.lt_succ_self n)).2

theorem intToChars_ne_nil (i : Int) : intToChars i ≠ [] := by
  unfold intToChars
  split
  · simp
  · exact natToChars_ne_nil _

theorem intToChars_no_dot (i : Int) : '.' ∉ intToChars i := by
  have hd : ∀ n : Nat, '.' ∉ natToChars n := by
    intro n hmem
    have := natToChars_digits n '.' hmem
    simp [Char.isDigit] at this
  unfold intToChars
  split
  · intro hmem
    rcases List.mem_cons.mp hmem with h | h
    · exact absurd h (by decide)
    · exact hd _ h
  · exact hd _

/-! ### Properties of amount normalization -/

/-- The head element of `jsSplit` (the part before the first separator)
contains no separator and only characters of the input. -/
theorem jsSplit_headD_spec (c : Char) (l : Str) :
    ∀ x ∈ (jsSplit c l).headD [], x ∈ l ∧ x ≠ c := by
  intro x hx
  cases hp : jsSplit c l with
  | nil => exact absurd hp (jsSplit_ne_nil c l)
  | cons s rest =>
    refine jsSplit_mem_mem c l s ?_ x (by simpa [hp] using hx)
    rw [hp]; exact List.mem_cons_self s rest

/-- The second element of `jsSplit` (the part between the first and second
separators) contains no separator and only characters of the input. -/
theorem jsSplit_second_spec (c : Char) (l : Str) :
    ∀ x ∈ (((jsSplit c l).drop 1).head?).getD [], x ∈ l ∧ x ≠ c := by
  intro x hx
  rcases hp : ((jsSplit c l).drop 1).head? with _ | s
  · rw [hp] at hx; simp at hx
  · rw [hp] at hx
    simp only [Option.getD_some] at hx
    have hs : s ∈ jsSplit c l :=
      List.mem_of_mem_drop (List.mem_of_mem_head? hp)
    exact jsSplit_mem_mem c l s hs x hx

/-- Any non-`null` result of `normalizeAtomicAmount` is a nonempty string
without a decimal point. -/
theorem normalizeAtomicAmount_result_shape (a r : Str)
    (h : normalizeAtomicAmount (some a) = some r) : r ≠ [] ∧ '.' ∉ r := by
  simp only [normalizeAtomicAmount] at h
  by_cases ha : a = []
  · rw [if_pos ha] at h; exact absurd h (by simp)
  rw [if_neg ha] at h
  by_cases hdot : '.' ∈ a
  · rw [if_pos hdot] at h
    set parts := jsSplit '.' a with hparts
    set whole := parts.headD [] with hwhole
    set fraction := ((parts.drop 1).head?).getD [] with hfraction
    set trimmedFraction := fraction.take 6 with htrim
    cases hp : parseUnits6 (whole ++ '.' :: trimmedFraction) with
    | some v =>
      simp only [hp] at h
      have hr : r = intToChars v := by
        simpa using h.symm
      subst hr
      exact ⟨intToChars_ne_nil v, intToChars_no_dot v⟩
    | none =>
      simp only [hp] at h
      set padded := (trimmedFraction ++ ['0', '0', '0', '0', '0', '0']).take 6
        with hpadded
      set combined := (whole ++ padded).dropWhile (· = '0') with hcombined
      have hr : r = if combined = [] then ['0'] else combined := by
        simpa using h.symm
      subst hr
      by_cases hc : combined = []
      · rw [if_pos hc]; exact ⟨by simp, by decide⟩
      · rw [if_neg hc]
        refine ⟨hc, fun hmem => ?_⟩
        have hsub : combined.Sublist (whole ++ padded) := by
          rw [hcombined]; exact List.dropWhile_sublist _
        have hmem2 : '.' ∈ whole ++ padded := hsub.mem hmem
        rcases List.mem_append.mp hmem2 with hm | hm
        · exact (jsSplit_headD_spec '.' a '.' hm).2 rfl
        · have hm2 : '.' ∈ trimmedFraction ++ ['0', '0', '0', '0', '0', '0'] :=
            List.take_subset _ _ hm
          rcases List.mem_append.mp hm2 with hm3 | hm3
          · have hm4 : '.' ∈ fraction := List.take_subset _ _ hm3
            exact (jsSplit_second_spec '.' a '.' hm4).2 rfl
          · simp at hm3
  · rw [if_neg hdot] at h
    have hr : r = a := by simpa using h.symm
    subst hr
    exact ⟨ha, hdot⟩

/-- `intToChars` of a natural number is its plain decimal rendering. -/
theorem intToChars_ofNat (n : Nat) : intToChars (n : Int) = natToChars n := by
  unfold intToChars
  rw [if_neg (by omega)]
  simp

/-- The validation regex accepts `whole.trimmed` for all-digit parts. -/
theorem decimalRegexTest_of_digits (whole trimmed : Str)
    (hw : ∀ c ∈ whole, c.isDigit) (ht : ∀ c ∈ trimmed, c.isDigit) :
    decimalRegexTest (whole ++ '.' :: trimmed) = true := by
  have hdig : ∀ c : Char, c.isDigit → c ≠ '-' := by
    intro c hc hcontra; subst hcontra; simp [Char.isDigit] at hc
  have hdig2 : ∀ c : Char, c.isDigit → c ≠ '.' := by
    intro c hc hcontra; subst hcontra; simp [Char.isDigit] at hc
  have hhead : ¬((whole ++ '.' :: trimmed).head? = some '-') := by
    cases whole with
    | nil => simp
    | cons c cs =>
      simp only [List.cons_append, List.head?_cons, Option.some_inj]
      exact hdig c (hw c (List.mem_cons_self c cs))
  simp only [decimalRegexTest]
  rw [if_neg hhead]
  rw [Bool.and_eq_true]
  constructor
  · rw [List.all_eq_true]
    intro c hc
    rcases List.mem_append.mp hc with hm | hm
    · simp [hw c hm]
    · rcases List.mem_cons.mp hm with hm2 | hm2
      · simp [hm2]
      · simp [ht c hm2]
  · rw [decide_eq_true_eq]
    have hcw : List.count '.' whole = 0 :=
      List.count_eq_zero.mpr (fun hm => hdig2 '.' (hw '.' hm) rfl)
    have hct : List.count '.' trimmed = 0 :=
      List.count_eq_zero.mpr (fun hm => hdig2 '.' (ht '.' hm) rfl)
    simp [List.count_append, List.count_cons, hcw, hct]

/-- `parseUnits(whole.trimmed, 6)` succeeds with a non-negative value when
both sides of the point are digit strings and the fraction has at most 6
digits. -/
theorem parseUnits6_of_digits (whole trimmed : Str)
    (hw : ∀ c ∈ whole, c.isDigit) (ht : ∀ c ∈ trimmed, c.isDigit)
    (hlen : trimmed.length ≤ 6) :
    ∃ n : Nat, parseUnits6 (whole ++ '.' :: trimmed) = some (n : Int) := by
  have hdig : ∀ c : Char, c.isDigit → c ≠ '-' := by
    intro c hc hcontra; subst hcontra; simp [Char.isDigit] at hc
  have hdig2 : ∀ c : Char, c.isDigit → c ≠ '.' := by
    intro c hc hcontra; subst hcontra; simp [Char.isDigit] at hc
  have hwd : '.' ∉ whole := fun hm => hdig2 '.' (hw '.' hm) rfl
  have htd : '.' ∉ trimmed := fun hm => hdig2 '.' (ht '.' hm) rfl
  unfold parseUnits6
  rw [decimalRegexTest_of_digits whole trimmed hw ht]
  simp only [Bool.true_eq_false, if_false]
  rw [jsSplit_append '.' whole trimmed hwd, jsSplit_of_not_mem '.' trimmed htd]
  simp only [List.headD_cons, List.drop_succ_cons, List.drop_zero,
    List.head?_cons, Option.getD_some]
  have hneg : ¬(whole.head? = some '-') := by
    cases whole with
    | nil => simp
    | cons c cs =>
      simp only [List.head?_cons, Option.some_inj]
      exact hdig c (hw c (List.mem_cons_self c cs))
  simp only [if_neg hneg]
  have hlt : (dropTrailingZeros trimmed).length ≤ trimmed.length := by
    unfold dropTrailingZeros
    calc (trimmed.reverse.dropWhile (· = '0')).reverse.length
        = (trimmed.reverse.dropWhile (· = '0')).length := List.length_reverse _
      _ ≤ trimmed.reverse.length := (List.dropWhile_sublist _).length_le
      _ = trimmed.length := List.length_reverse _
  rw [if_neg (by omega)]
  set s := padEndZeros (dropTrailingZeros trimmed) 6 with hs
  have hsd : ∀ c ∈ s, c.isDigit := by
    intro c hc
    rw [hs] at hc
    unfold padEndZeros at hc
    rcases List.mem_append.mp hc with hm | hm
    · have : c ∈ trimmed := by
        unfold dropTrailingZeros at hm
        have h1 : c ∈ trimmed.reverse.dropWhile (· = '0') :=
          List.mem_reverse.mp hm
        exact List.mem_reverse.mp ((List.dropWhile_sublist _).mem h1)
      exact ht c this
    · have := List.eq_of_mem_replicate hm
      subst this; decide
  have hfinal : ¬((whole ++ s).head? = some '-') := by
    intro hcontra
    have hm : '-' ∈ whole ++ s :=
      List.mem_of_mem_head? (Option.mem_def.mpr hcontra)
    rcases List.mem_append.mp hm with h | h
    · exact hdig '-' (hw '-' h) rfl
    · exact hdig '-' (hsd '-' h) rfl
  refine ⟨digitsToNat (whole ++ s), ?_⟩
  simp only [List.nil_append]
  unfold jsBigIntOfDigits
  rw [if_neg hfinal]

/-- claim C2 counterexample: the dot-less input `"-5"` is returned unchanged,
and it is not a non-negative base-10 integer string, so the unconditional
postcondition of the claim fails. -/
theorem normalizeAtomicAmount_nonneg_counterexample :
    normalizeAtomicAmount (some ['-', '5']) = some ['-', '5'] ∧
      isNonNegIntegerStr ['-', '5'] = false := by decide

/-- C2 (amended): `normalizeAtomicAmount` is total by construction (the
embedding needs no exception monad); it returns `null` exactly on `null` or
empty input; any input without a decimal point is returned unchanged; and on
every nonempty input made of digits and decimal points — in particular on
every well-formed decimal amount — the result is a non-negative base-10
integer string.  (Inputs with other characters are echoed verbatim when
dot-less, so the integer-string postcondition is not unconditional.) -/
theorem normalizeAtomicAmount_total_and_integer :
    (normalizeAtomicAmount none = none) ∧
    (∀ a : Str, normalizeAtomicAmount (some a) = none ↔ a = []) ∧
    (∀ a : Str, a ≠ [] → '.' ∉ a → normalizeAtomicAmount (some a) = some a) ∧
    (∀ a : Str, a ≠ [] → (∀ c ∈ a, c.isDigit ∨ c = '.') →
      ∃ r, normalizeAtomicAmount (some a) = some r ∧ isNonNegIntegerStr r = true) := by
  refine ⟨rfl, ?_, ?_, ?_⟩
  · intro a
    constructor
    · intro h
      by_contra ha
      simp only [normalizeAtomicAmount] at h
      rw [if_neg ha] at h
      by_cases hdot : '.' ∈ a
      · rw [if_pos hdot] at h
        cases hp : parseUnits6 ((jsSplit '.' a).headD [] ++ '.' ::
            ((((jsSplit '.' a).drop 1).head?).getD []).take 6) with
        | some v => simp only [hp] at h; exact absurd h (by simp)
        | none => simp only [hp] at h; exact absurd h (by simp)
      · rw [if_neg hdot] at h; exact absurd h (by simp)
    · intro h; subst h; rfl
  · intro a ha hdot
    simp only [normalizeAtomicAmount]
    rw [if_neg ha, if_neg hdot]
  · intro a ha hchars
    by_cases hdot : '.' ∈ a
    · have hw : ∀ c ∈ (jsSplit '.' a).headD [], c.isDigit := by
        intro c hc
        have := jsSplit_headD_spec '.' a c hc
        rcases hchars c this.1 with h | h
        · exact h
        · exact absurd h this.2
      have hf : ∀ c ∈ (((jsSplit '.' a).drop 1).head?).getD [], c.isDigit := by
        intro c hc
        have := jsSplit_second_spec '.' a c hc
        rcases hchars c this.1 with h | h
        · exact h
        · exact absurd h this.2
      have ht : ∀ c ∈ ((((jsSplit '.' a).drop 1).head?).getD []).take 6,
          c.isDigit := fun c hc => hf c (List.take_subset _ _ hc)
      obtain ⟨n, hn⟩ := parseUnits6_of_digits ((jsSplit '.' a).headD [])
        (((((jsSplit '.' a).drop 1).head?).getD []).take 6) hw ht
        (List.length_take_le _ _)
      refine ⟨natToChars n, ?_, ?_⟩
      · simp only [normalizeAtomicAmount]
        rw [if_neg ha, if_pos hdot]
        simp only [hn, intToChars_ofNat]
      · unfold isNonNegIntegerStr
        rw [Bool.and_eq_true]
        refine ⟨?_, ?_⟩
        · simp [List.isEmpty_iff, natToChars_ne_nil n]
        · rw [List.all_eq_true]
          intro c hc
          simp [natToChars_digits n c hc]
    · refine ⟨a, ?_, ?_⟩
      · simp only [normalizeAtomicAmount]
        rw [if_neg ha, if_neg hdot]
      · unfold isNonNegIntegerStr
        rw [Bool.and_eq_true]
        refine ⟨by simp [List.isEmpty_iff, ha], ?_⟩
        rw [List.all_eq_true]
        intro c hc
        rcases hchars c hc with h | h
        · simp [h]
        · exact absurd h (fun hh => hdot (hh ▸ hc))

/-- Witness for `normalizeAtomicAmount_total_and_integer` at the concrete
decimal amount `"12.5"`. -/
theorem normalizeAtomicAmount_total_and_integer_witness :
    ∃ r, normalizeAtomicAmount (some "12.5".toList) = some r ∧
      isNonNegIntegerStr r = true :=
  normalizeAtomicAmount_total_and_integer.2.2.2 "12.5".toList (by decide)
    (by decide)

/-- C8: truncation beyond the sixth fractional digit — normalizing
`whole.frac` equals normalizing `whole.(first 6 characters of frac)`; digits
past the sixth are ignored, never rounded. -/
theorem normalizeAtomicAmount_truncates (whole frac : Str)
    (hw : '.' ∉ whole) (hf : '.' ∉ frac) (_hlen : 6 < frac.length) :
    normalizeAtomicAmount (some (whole ++ '.' :: frac)) =
      normalizeAtomicAmount (some (whole ++ '.' :: frac.take 6)) := by
  have h1 : whole ++ '.' :: frac ≠ [] := by simp
  have h2 : whole ++ '.' :: frac.take 6 ≠ [] := by simp
  have hd1 : '.' ∈ whole ++ '.' :: frac := by simp
  have hd2 : '.' ∈ whole ++ '.' :: frac.take 6 := by simp
  have hft : '.' ∉ frac.take 6 := fun hm => hf (List.take_subset _ _ hm)
  simp only [normalizeAtomicAmount]
  rw [if_neg h1, if_neg h2, if_pos hd1, if_pos hd2,
    jsSplit_append '.' whole frac hw, jsSplit_append '.' whole (frac.take 6) hw,
    jsSplit_of_not_mem '.' frac hf, jsSplit_of_not_mem '.' (frac.take 6) hft]
  have htt : List.take 6 (List.take 6 frac) = List.take 6 frac := by
    rw [List.take_take]; simp
  simp [htt]
  rw [htt]

/-- Witness for `normalizeAtomicAmount_truncates`: the spec's own instance,
`toAtomic("1.1234567") == toAtomic("1.123456")`. -/
theorem normalizeAtomicAmount_truncates_witness :
    normalizeAtomicAmount (some "1.1234567".toList) =
      normalizeAtomicAmount (some "1.123456".toList) :=
  normalizeAtomicAmount_truncates ['1'] "1234567".toList (by decide) (by decide)
    (by decide)

/-- C9: idempotence — whenever `normalizeAtomicAmount` returns a non-null
result, renormalizing that result returns it unchanged. -/
theorem normalizeAtomicAmount_idempotent (x r : Str)
    (h : normalizeAtomicAmount (some x) = some r) :
    normalizeAtomicAmount (some r) = some r := by
  obtain ⟨hne, hdot⟩ := normalizeAtomicAmount_result_shape x r h
  simp only [normalizeAtomicAmount]
  rw [if_neg hne, if_neg hdot]

/-- Witness for `normalizeAtomicAmount_idempotent` at `"1.5"`. -/
theorem normalizeAtomicAmount_idempotent_witness :
    normalizeAtomicAmount (some "1500000".toList) = some "1500000".toList :=
  normalizeAtomicAmount_idempotent "1.5".toList "1500000".toList (by decide)

/-! ### Properties of chain resolution and requirement selection -/

/-- A successful chain-id parse implies the network string is nonempty. -/
theorem parseNetworkChainId_ne_nil (s : Str) (cid : Nat)
    (h : parseNetworkChainId (some s) = some cid) : s ≠ [] := by
  intro hs
  subst hs
  simp [parseNetworkChainId] at h

/-- claim C3 counterexample: the requirement network `"eip155:0"` parses to
chain id `0`, which differs from the supplied config's chain id `1`, yet
`resolveChain` returns the supplied config instead of the map override keyed
by the network (chain id `0` is falsy in the source's guard). -/
theorem resolveChain_precedence_counterexample :
    parseNetworkChainId (some "eip155:0".toList) = some 0 ∧
    (0 : Nat) ≠ (1 : Nat) ∧
    recordLookup
        [("eip155:0".toList,
          { chainId := 2, name := [], usdcAddress := [], rpcUrl := [],
            blockExplorer := [] })] "eip155:0".toList =
      some { chainId := 2, name := [], usdcAddress := [], rpcUrl := [],
             blockExplorer := [] } ∧
    resolveChain []
        (some { scheme := [], network := "eip155:0".toList,
                maxAmountRequired := [], payTo := [], asset := [],
                maxTimeoutSeconds := 0 })
        (some { chainId := 1, name := [], usdcAddress := [], rpcUrl := [],
                blockExplorer := [] })
        (some [("eip155:0".toList,
          { chainId := 2, name := [], usdcAddress := [], rpcUrl := [],
            blockExplorer := [] })]) =
      some { chainId := 1, name := [], usdcAddress := [], rpcUrl := [],
             blockExplorer := [] } := by
  decide

/-- C3 (amended): `resolveChain` precedence — (1) with a single config and a
requirement whose parsed chain id equals the config's, the single config is
returned; (2) with a single config and a parsed chain id that is *nonzero*
and differs, the caller map / built-in default map entry keyed by the
requirement's network is returned (`undefined` when absent); (3) with no
single config and a *nonempty* requirement network, the map/default lookup is
returned; (4) with no requirement and no single config, `undefined`. -/
theorem resolveChain_precedence :
    (∀ (defaults : ChainMap) (cm : Option ChainMap) (cfg : ChainConfig)
       (r : X402PaymentRequirement),
       parseNetworkChainId (some r.network) = some cfg.chainId →
       resolveChain defaults (some r) (some cfg) cm = some cfg) ∧
    (∀ (defaults : ChainMap) (cm : Option ChainMap) (cfg : ChainConfig)
       (r : X402PaymentRequirement) (cid : Nat),
       parseNetworkChainId (some r.network) = some cid → cid ≠ 0 →
       cid ≠ cfg.chainId →
       resolveChain defaults (some r) (some cfg) cm =
         lookupOverride cm defaults r.network) ∧
    (∀ (defaults : ChainMap) (cm : Option ChainMap)
       (r : X402PaymentRequirement),
       r.network ≠ [] →
       resolveChain defaults (some r) none cm =
         lookupOverride cm defaults r.network) ∧
    (∀ (defaults : ChainMap) (cm : Option ChainMap),
       resolveChain defaults none none cm = none) := by
  refine ⟨?_, ?_, ?_, ?_⟩
  · intro defaults cm cfg r h
    have hnet : r.network ≠ [] := parseNetworkChainId_ne_nil _ _ h
    simp only [resolveChain]
    rw [if_neg hnet, h]
    exact if_neg (by intro hc; exact hc.2 rfl)
  · intro defaults cm cfg r cid h h0 hne
    have hnet : r.network ≠ [] := parseNetworkChainId_ne_nil _ _ h
    simp only [resolveChain]
    rw [if_neg hnet, h]
    exact if_pos ⟨h0, hne⟩
  · intro defaults cm r hnet
    simp only [resolveChain]
    rw [if_neg hnet]
  · intro defaults cm
    rfl

/-- Witness for `resolveChain_precedence`, exercising each clause at concrete
inputs. -/
theorem resolveChain_precedence_witness :
    resolveChain []
        (some { scheme := [], network := "eip155:1".toList,
                maxAmountRequired := [], payTo := [], asset := [],
                maxTimeoutSeconds := 0 })
        (some { chainId := 1, name := [], usdcAddress := [], rpcUrl := [],
                blockExplorer := [] }) none =
      some { chainId := 1, name := [], usdcAddress := [], rpcUrl := [],
             blockExplorer := [] } ∧
    resolveChain []
        (some { scheme := [], network := "eip155:2".toList,
                maxAmountRequired := [], payTo := [], asset := [],
                maxTimeoutSeconds := 0 })
        (some { chainId := 1, name := [], usdcAddress := [], rpcUrl := [],
                blockExplorer := [] }) none =
      lookupOverride none [] "eip155:2".toList ∧
    resolveChain []
        (some { scheme := [], network := "eip155:2".toList,
                maxAmountRequired := [], payTo := [], asset := [],
                maxTimeoutSeconds := 0 }) none none =
      lookupOverride none [] "eip155:2".toList ∧
    resolveChain [] none none none = none :=
  ⟨resolveChain_precedence.1 _ _ _ _ (by decide),
   resolveChain_precedence.2.1 _ _ _ _ 2 (by decide) (by decide) (by decide),
   resolveChain_precedence.2.2.1 _ _ _ (by decide),
   resolveChain_precedence.2.2.2 _ _⟩

/-- C10: with a supplied single config, a requirement whose network does not
parse (or parses to chain id 0) resolves to that config unchanged, and the
override/failure branch is reachable only for a nonzero parsed chain id
different from the config's. -/
theorem resolveChain_zero_or_unparsed :
    (∀ (defaults : ChainMap) (cm : Option ChainMap) (cfg : ChainConfig)
       (r : X402PaymentRequirement),
       (parseNetworkChainId (some r.network) = none ∨
        parseNetworkChainId (some r.network) = some 0) →
       resolveChain defaults (some r) (some cfg) cm = some cfg) ∧
    (∀ (defaults : ChainMap) (cm : Option ChainMap) (cfg : ChainConfig)
       (r : X402PaymentRequirement),
       resolveChain defaults (some r) (some cfg) cm ≠ some cfg →
       ∃ cid : Nat, parseNetworkChainId (some r.network) = some cid ∧
         cid ≠ 0 ∧ cid ≠ cfg.chainId) := by
  constructor
  · intro defaults cm cfg r h
    by_cases hnet : r.network = []
    · simp only [resolveChain]
      rw [if_pos hnet]
    · simp only [resolveChain]
      rw [if_neg hnet]
      rcases h with h | h
      · rw [h]
      · rw [h]
        exact if_neg (by intro hc; exact hc.1 rfl)
  · intro defaults cm cfg r h
    by_cases hnet : r.network = []
    · exact absurd (by simp only [resolveChain]; rw [if_pos hnet]) h
    · cases hp : parseNetworkChainId (some r.network) with
      | none =>
        exact absurd (by simp only [resolveChain]; rw [if_neg hnet, hp]) h
      | some cid =>
        by_cases hc : cid ≠ 0 ∧ cid ≠ cfg.chainId
        · exact ⟨cid, rfl, hc.1, hc.2⟩
        · refine absurd ?_ h
          simp only [resolveChain]
          rw [if_neg hnet, hp]
          exact if_neg hc

/-- Witness for `resolveChain_zero_or_unparsed` at concrete inputs: an
unparsable network resolves to the supplied config, and a resolution that
departs from the supplied config exhibits a nonzero differing chain id. -/
theorem resolveChain_zero_or_unparsed_witness :
    resolveChain []
        (some { scheme := [], network := "base-sepolia".toList,
                maxAmountRequired := [], payTo := [], asset := [],
                maxTimeoutSeconds := 0 })
        (some { chainId := 1, name := [], usdcAddress := [], rpcUrl := [],
                blockExplorer := [] }) none =
      some { chainId := 1, name := [], usdcAddress := [], rpcUrl := [],
             blockExplorer := [] } ∧
    ∃ cid : Nat,
      parseNetworkChainId (some "eip155:84532".toList) = some cid ∧
        cid ≠ 0 ∧
        cid ≠ ({ chainId := 1, name := [], usdcAddress := [], rpcUrl := [],
                 blockExplorer := [] } : ChainConfig).chainId :=
  ⟨resolveChain_zero_or_unparsed.1 _ _ _ _ (by decide),
   resolveChain_zero_or_unparsed.2 [] none
     { chainId := 1, name := [], usdcAddress := [], rpcUrl := [],
       blockExplorer := [] }
     { scheme := [], network := "eip155:84532".toList,
       maxAmountRequired := [], payTo := [], asset := [],
       maxTimeoutSeconds := 0 } (by decide)⟩

/-- C7: `pickRequirement` selects `accepts[acceptIndex]` for an in-range
index, falls back to `accepts[0]` for an out-of-range index, and selects
nothing from an empty list. -/
theorem pickRequirement_spec :
    (∀ (accepts : List X402PaymentRequirement) (i : Int),
       accepts = [] → pickRequirement accepts i = none) ∧
    (∀ (accepts : List X402PaymentRequirement) (i : Int),
       0 ≤ i → i < accepts.length →
       pickRequirement accepts i = accepts[i.toNat]? ∧
         (accepts[i.toNat]?).isSome = true) ∧
    (∀ (accepts : List X402PaymentRequirement) (i : Int),
       accepts ≠ [] → (i < 0 ∨ (accepts.length : Int) ≤ i) →
       pickRequirement accepts i = accepts[0]? ∧
         (accepts[0]?).isSome = true) := by
  refine ⟨?_, ?_, ?_⟩
  · intro accepts i h
    subst h
    rfl
  · intro accepts i h0 hlen
    have hne : ¬accepts.length = 0 := by omega
    have hidx : i.toNat < accepts.length := by omega
    unfold pickRequirement
    rw [if_neg hne, if_pos ⟨h0, hlen⟩]
    exact ⟨rfl, by rw [List.getElem?_eq_getElem hidx]; rfl⟩
  · intro accepts i hne hrange
    have hlen : ¬accepts.length = 0 := by
      intro h; exact hne (List.eq_nil_of_length_eq_zero h)
    have hcond : ¬(0 ≤ i ∧ i < accepts.length) := by omega
    unfold pickRequirement
    rw [if_neg hlen, if_neg hcond]
    have h0 : 0 < accepts.length := by omega
    exact ⟨rfl, by rw [List.getElem?_eq_getElem h0]; rfl⟩

/-- Witness for `pickRequirement_spec` on a concrete two-element list with an
in-range index `1`, an out-of-range index `5`, and the empty list. -/
theorem pickRequirement_spec_witness :
    pickRequirement [] 0 = none ∧
    pickRequirement
        [{ scheme := ['a'], network := [], maxAmountRequired := [],
           payTo := [], asset := [], maxTimeoutSeconds := 0 },
         { scheme := ['b'], network := [], maxAmountRequired := [],
           payTo := [], asset := [], maxTimeoutSeconds := 0 }] 1 =
      some { scheme := ['b'], network := [], maxAmountRequired := [],
             payTo := [], asset := [], maxTimeoutSeconds := 0 } ∧
    pickRequirement
        [{ scheme := ['a'], network := [], maxAmountRequired := [],
           payTo := [], asset := [], maxTimeoutSeconds := 0 },
         { scheme := ['b'], network := [], maxAmountRequired := [],
           payTo := [], asset := [], maxTimeoutSeconds := 0 }] 5 =
      some { scheme := ['a'], network := [], maxAmountRequired := [],
             payTo := [], asset := [], maxTimeoutSeconds := 0 } := by
  refine ⟨pickRequirement_spec.1 [] 0 rfl, ?_, ?_⟩
  · have := (pickRequirement_spec.2.1
      [{ scheme := ['a'], network := [], maxAmountRequired := [],
         payTo := [], asset := [], maxTimeoutSeconds := 0 },
       { scheme := ['b'], network := [], maxAmountRequired := [],
         payTo := [], asset := [], maxTimeoutSeconds := 0 }] 1
      (by decide) (by decide)).1
    rw [this]
    decide
  · have := (pickRequirement_spec.2.2
      [{ scheme := ['a'], network := [], maxAmountRequired := [],
         payTo := [], asset := [], maxTimeoutSeconds := 0 },
       { scheme := ['b'], network := [], maxAmountRequired := [],
         payTo := [], asset := [], maxTimeoutSeconds := 0 }] 5
      (by decide) (by decide)).1
    rw [this]
    decide

/-! ### Properties of the error classifier -/

/-- claim C6 counterexample: an error object whose truthy `message` field is
not a string (so it is not short-circuited by any earlier check) makes
`isUserRejection` throw a `TypeError` in `err.message?.toLowerCase()` —
the classifier is not total over arbitrary shapes. -/
theorem isUserRejection_throws_counterexample :
    isUserRejection (.value false false none none (some .nonString)) =
      .error () := rfl

/-- C6 (amended): on every input whose `message` field is absent or a string
— in particular on every genuine `Error` value — `isUserRejection` returns a
boolean without throwing, and returns `true` exactly when the input is a
known rejection error kind (`instanceof`), has numeric code 4001, has a name
matching a known rejection type name, or has a message containing
`"user rejected"` case-insensitively.  (A truthy non-string `message` makes
the source throw, per the counterexample.) -/
theorem isUserRejection_classifier :
    (isUserRejection .nullish = .ok false) ∧
    (∀ (instUser instTx : Bool) (code : Option Int) (name : Option Str)
       (message : Option MsgVal),
       message ≠ some .nonString →
       ∃ b : Bool,
         isUserRejection (.value instUser instTx code name message) = .ok b ∧
           (b = true ↔
             (instUser = true ∨ instTx = true) ∨
             code = some 4001 ∨
             (name = some "UserRejectedRequestError".toList ∨
              name = some "TransactionRejectedRpcError".toList) ∨
             (∃ m, message = some (.str m) ∧
               containsSubstr (strLower m) "user rejected".toList = true))) := by
  refine ⟨rfl, ?_⟩
  intro instUser instTx code name message hmsg
  simp only [isUserRejection]
  by_cases h1 : (instUser || instTx) = true
  · rw [if_pos h1]
    simp only [Bool.or_eq_true] at h1
    exact ⟨true, rfl, iff_of_true rfl (Or.inl h1)⟩
  · rw [if_neg h1]
    simp only [Bool.or_eq_true, not_or] at h1
    by_cases h2 : code = some 4001
    · rw [if_pos h2]
      exact ⟨true, rfl, iff_of_true rfl (Or.inr (Or.inl h2))⟩
    · rw [if_neg h2]
      by_cases h3 : name = some "UserRejectedRequestError".toList ∨
          name = some "TransactionRejectedRpcError".toList
      · rw [if_pos h3]
        exact ⟨true, rfl, iff_of_true rfl (Or.inr (Or.inr (Or.inl h3)))⟩
      · rw [if_neg h3]
        cases message with
        | none =>
          refine ⟨false, rfl, ⟨fun hb => absurd hb (by simp), fun hb => ?_⟩⟩
          rcases hb with h | h | h | ⟨m, hm, _⟩
          · rcases h with h | h
            · exact absurd h h1.1
            · exact absurd h h1.2
          · exact absurd h h2
          · exact absurd h h3
          · simp at hm
        | some mv =>
          cases mv with
          | str m =>
            refine ⟨containsSubstr (strLower m) "user rejected".toList, rfl, ?_⟩
            constructor
            · intro hb
              exact Or.inr (Or.inr (Or.inr ⟨m, rfl, hb⟩))
            · intro hb
              rcases hb with h | h | h | ⟨m', hm', hc⟩
              · rcases h with h | h
                · exact absurd h h1.1
                · exact absurd h h1.2
              · exact absurd h h2
              · exact absurd h h3
              · cases hm'
                exact hc
          | nonString => exact absurd rfl hmsg

/-- Witness for `isUserRejection_classifier` at the wallet-standard numeric
rejection code 4001. -/
theorem isUserRejection_classifier_witness :
    ∃ b : Bool,
      isUserRejection (.value false false (some 4001) none none) = .ok b ∧
        (b = true ↔
          ((false : Bool) = true ∨ (false : Bool) = true) ∨
          (some 4001 : Option Int) = some 4001 ∨
          ((none : Option Str) = some "UserRejectedRequestError".toList ∨
           (none : Option Str) = some "TransactionRejectedRpcError".toList) ∨
          (∃ m, (none : Option MsgVal) = some (.str m) ∧
            containsSubstr (strLower m) "user rejected".toList = true)) :=
  isUserRejection_classifier.2 false false (some 4001) none none (by decide)

/-! ### Properties of the ActionLock -/

/-- claim C1 counterexample: the operation sequence
`[beginAction, resetAction, beginAction]` from the initial lock state yields
two `beginAction` calls that both return non-null tokens (`1` and `3`), with
no `endAction` occurring anywhere between them — `resetAction` releases the
lock, so mutual exclusion does not survive the interleaving the claim
includes. -/
theorem actionLock_mutual_exclusion_counterexample :
    (runLock initLockState [.beginOp, .resetOp, .beginOp]).1 =
      [some 1, none, some 3] ∧
    List.count LockOp.endOp [LockOp.beginOp, LockOp.resetOp, LockOp.beginOp] =
      0 := by
  decide

/-- After a successful `beginAction` the lock flag is set. -/
theorem beginAction_some_lock (s : LockState) (t : Nat)
    (h : (beginAction s).1 = some t) : (beginAction s).2.lock = true := by
  unfold beginAction at h ⊢
  by_cases hl : s.lock
  · rw [if_pos hl] at h; exact absurd h (by simp)
  · rw [if_neg hl]

/-- A locked state stays locked, every `beginAction` returning `null`, along
any operation sequence free of `endAction` and `resetAction`. -/
theorem runLock_locked (ops : List LockOp) :
    ∀ s : LockState, s.lock = true →
      LockOp.endOp ∉ ops → LockOp.resetOp ∉ ops →
      (runLock s ops).2.lock = true ∧ ∀ out ∈ (runLock s ops).1, out = none := by
  induction ops with
  | nil => intro s hs _ _; exact ⟨hs, by simp [runLock]⟩
  | cons op rest ih =>
    intro s hs hend hreset
    simp only [List.mem_cons, not_or] at hend hreset
    have hop : op = LockOp.beginOp := by
      cases op with
      | beginOp => rfl
      | endOp => exact absurd rfl (Ne.symm hend.1)
      | resetOp => exact absurd rfl (Ne.symm hreset.1)
    subst hop
    have hstep : lockStep s .beginOp = (none, s) := by
      simp only [lockStep, beginAction]
      rw [if_pos hs]
    simp only [runLock, hstep]
    have := ih s hs hend.2 hreset.2
    exact ⟨this.1, by
      intro out hout
      rcases List.mem_cons.mp hout with h | h
      · simp [h]
      · exact this.2 out h⟩

/-- C1 (amended): between a `beginAction` returning a non-null token and the
first subsequent `endAction` *or `resetAction`*, every `beginAction` returns
null — the lock stays held along any end/reset-free operation sequence.
Moreover at most one token is current (non-stale) at any instant, so a
superseded in-flight action (whose lock was force-released by `resetAction`)
always holds a stale token.  (Unamended, the claim fails: `resetAction`
releases the lock before the superseded action's own `endAction` runs, per
the counterexample.) -/
theorem actionLock_mutual_exclusion_amended :
    (∀ (s : LockState) (t : Nat) (ops : List LockOp),
       (beginAction s).1 = some t →
       LockOp.endOp ∉ ops → LockOp.resetOp ∉ ops →
       (∀ out ∈ (runLock (beginAction s).2 ops).1, out = none) ∧
         (beginAction (runLock (beginAction s).2 ops).2).1 = none) ∧
    (∀ (s : LockState) (t1 t2 : Nat),
       isActionStale s t1 = false → isActionStale s t2 = false → t1 = t2) := by
  constructor
  · intro s t ops hbegin hend hreset
    have hlock := beginAction_some_lock s t hbegin
    have hrun := runLock_locked ops (beginAction s).2 hlock hend hreset
    refine ⟨hrun.2, ?_⟩
    have hgen : ∀ s' : LockState, s'.lock = true → (beginAction s').1 = none := by
      intro s' hs'
      unfold beginAction
      rw [if_pos hs']
    exact hgen _ hrun.1
  · intro s t1 t2 h1 h2
    unfold isActionStale at h1 h2
    simp only [ne_eq, decide_eq_false_iff_not, not_not] at h1 h2
    omega

/-- Witness for `actionLock_mutual_exclusion_amended`: from the initial
state, after `beginAction` returns token 1, a further `beginAction` (with no
intervening `endAction`/`resetAction`) returns null; and concrete staleness
uniqueness. -/
theorem actionLock_mutual_exclusion_amended_witness :
    ((∀ out ∈ (runLock (beginAction initLockState).2 [LockOp.beginOp]).1,
        out = none) ∧
      (beginAction (runLock (beginAction initLockState).2 [LockOp.beginOp]).2).1 =
        none) ∧
    (1 : Nat) = 1 :=
  ⟨actionLock_mutual_exclusion_amended.1 initLockState 1 [LockOp.beginOp]
      (by decide) (by decide) (by decide),
   actionLock_mutual_exclusion_amended.2
      { lock := true, nonce := 1, busy := true } 1 1 (by decide) (by decide)⟩

/-! ### Properties of balance aggregation -/

/-- Every entry's output carries its requirement's network identifier. -/
theorem entryOutput_network (e : BalanceConfigEntry) (d : List CallResult) :
    (entryOutput e d).network = e.accept.network := by
  unfold entryOutput
  split
  · unfold processValid
    split
    · split
      · rfl
      · split
        · rfl
        · rfl
    · rfl
  · rfl

/-- `processEntries` produces one output per entry. -/
theorem processEntries_length (es : List BalanceConfigEntry)
    (d : List CallResult) : (processEntries es d).length = es.length := by
  induction es generalizing d with
  | nil => rfl
  | cons e rest ih => simp [processEntries, ih]

/-- Characterization of `processEntries`: the `i`-th output is determined by
the `i`-th entry and (for a valid entry) its own two result slots, located at
`slotIndex` — a failure recorded in one entry's slots cannot influence any
other entry's output. -/
theorem processEntries_getElem (es : List BalanceConfigEntry)
    (d : List CallResult) (i : Nat) :
    (processEntries es d)[i]? =
      (es[i]?).map (fun e => entryOutput e (d.drop (slotIndex es i))) := by
  induction es generalizing d i with
  | nil => simp [processEntries]
  | cons e rest ih =>
    cases i with
    | zero =>
      simp [processEntries, slotIndex]
    | succ j =>
      have hslot : slotIndex (e :: rest) (j + 1) =
          (if isValidEntry e then 2 else 0) + slotIndex rest j := by
        unfold slotIndex
        simp only [List.take_succ_cons, List.filter_cons]
        by_cases hv : isValidEntry e
        · rw [if_pos hv, if_pos hv]
          simp only [List.length_cons]
          omega
        · rw [if_neg hv, if_neg hv]
          omega
      simp only [processEntries, List.getElem?_cons_succ, ih, hslot]
      by_cases hv : isValidEntry e
      · simp only [if_pos hv, List.drop_drop]
      · simp only [if_neg hv, Nat.zero_add]

/-- C5: balance aggregation — with balances enabled, an address connected and
per-call results available, the output has exactly one `BalanceInfo` per
accepted requirement in requirement order; a requirement whose chain cannot
be resolved yields the error `"Missing chain configuration"` and contributes
no contract calls; and each entry's output is a function of that entry and
its own two result slots alone, so one entry's failure cannot affect
another's result. -/
theorem useBalanceData_aggregation (getAddr : Str → Option Str)
    (defaults : ChainMap) (accepts : List X402PaymentRequirement)
    (chainConfig : Option ChainConfig) (chainConfigs : Option ChainMap)
    (addr : Str) (d : List CallResult) :
    (useBalanceDataBalances true (some addr)
        (buildBalanceConfigs getAddr defaults accepts chainConfig chainConfigs)
        (some d)).length = accepts.length ∧
    (∀ i : Nat,
      ((useBalanceDataBalances true (some addr)
          (buildBalanceConfigs getAddr defaults accepts chainConfig chainConfigs)
          (some d))[i]?).map (·.network) = (accepts[i]?).map (·.network)) ∧
    (∀ (i : Nat) (acc : X402PaymentRequirement), accepts[i]? = some acc →
      resolveChain defaults (some acc) chainConfig chainConfigs = none →
      ((useBalanceDataBalances true (some addr)
          (buildBalanceConfigs getAddr defaults accepts chainConfig chainConfigs)
          (some d))[i]?).map (·.error) =
        some (some "Missing chain configuration".toList) ∧
      ((buildBalanceConfigs getAddr defaults accepts chainConfig
          chainConfigs)[i]?).map (entryCalls addr) = some []) ∧
    (∀ i : Nat,
      (useBalanceDataBalances true (some addr)
          (buildBalanceConfigs getAddr defaults accepts chainConfig chainConfigs)
          (some d))[i]? =
        ((buildBalanceConfigs getAddr defaults accepts chainConfig
            chainConfigs)[i]?).map
          (fun e => entryOutput e (d.drop (slotIndex
            (buildBalanceConfigs getAddr defaults accepts chainConfig
              chainConfigs) i)))) := by
  set entries := buildBalanceConfigs getAddr defaults accepts chainConfig
    chainConfigs with hentries
  have hlen : entries.length = accepts.length := by
    rw [hentries]; exact List.length_map _ _
  by_cases hnil : entries = []
  · have hanil : accepts = [] := by
      have := hlen
      rw [hnil] at this
      exact (List.eq_nil_of_length_eq_zero this.symm)
    subst hanil
    have he : entries = [] := hnil
    refine ⟨?_, ?_, ?_, ?_⟩
    · simp [useBalanceDataBalances, he]
    · intro i; simp [useBalanceDataBalances, he, hnil]
    · intro i acc hacc; simp at hacc
    · intro i; simp [useBalanceDataBalances, he, hnil]
  · have hout : useBalanceDataBalances true (some addr) entries (some d) =
        processEntries entries d := by
      unfold useBalanceDataBalances
      rw [if_neg (by simp [hnil])]
    have hchar : ∀ i : Nat,
        (useBalanceDataBalances true (some addr) entries (some d))[i]? =
          (entries[i]?).map
            (fun e => entryOutput e (d.drop (slotIndex entries i))) := by
      intro i
      rw [hout]
      exact processEntries_getElem entries d i
    have hget : ∀ i : Nat, entries[i]? =
        (accepts[i]?).map (fun acc =>
          match resolveChain defaults (some acc) chainConfig chainConfigs with
          | none =>
            { accept := acc, config := none, usdcAddress := none
              error := some "Missing chain configuration".toList }
          | some config =>
            match getAddr config.usdcAddress with
            | some usdcAddress =>
              { accept := acc, config := some config
                usdcAddress := some usdcAddress, error := none }
            | none =>
              { accept := acc, config := some config, usdcAddress := none
                error := some "Invalid USDC address".toList }) := by
      intro i
      rw [hentries]
      unfold buildBalanceConfigs
      exact List.getElem?_map _ accepts i
    refine ⟨?_, ?_, ?_, hchar⟩
    · rw [hout, processEntries_length, hlen]
    · intro i
      rw [hchar i, hget i]
      cases accepts[i]? with
      | none => rfl
      | some acc =>
        cases hr : resolveChain defaults (some acc) chainConfig chainConfigs with
        | none => simp [hr, entryOutput_network]
        | some config =>
          cases hga : getAddr config.usdcAddress with
          | some u => simp [hr, hga, entryOutput_network]
          | none => simp [hr, hga, entryOutput_network]
    · intro i acc hacc hresolve
      rw [hchar i, hget i, hacc]
      refine ⟨?_, ?_⟩
      · simp [hresolve, entryOutput, buildBalanceError]
      · simp [hresolve, entryCalls]

/-- Witness for `useBalanceData_aggregation`: the spec's own test scenario —
three requirements of which the middle one has no resolvable chain while
another's RPC call fails — yields exactly three entries. -/
theorem useBalanceData_aggregation_witness :
    (useBalanceDataBalances true (some "0xabc".toList)
        (buildBalanceConfigs some []
          [{ scheme := [], network := "eip155:1".toList,
             maxAmountRequired := [], payTo := [], asset := [],
             maxTimeoutSeconds := 0 },
           { scheme := [], network := "eip155:2".toList,
             maxAmountRequired := [], payTo := [], asset := [],
             maxTimeoutSeconds := 0 },
           { scheme := [], network := "eip155:1".toList,
             maxAmountRequired := [], payTo := [], asset := [],
             maxTimeoutSeconds := 0 }]
          (some { chainId := 1, name := [], usdcAddress := [], rpcUrl := [],
                  blockExplorer := [] }) none)
        (some [{ status := .success, result := some (.big 5), error := none },
               { status := .success, result := some (.num 6), error := none },
               { status := .failure, result := none,
                 error := some (some "boom".toList) },
               { status := .failure, result := none, error := none }])).length =
      3 :=
  (useBalanceData_aggregation some []
    [{ scheme := [], network := "eip155:1".toList, maxAmountRequired := [],
       payTo := [], asset := [], maxTimeoutSeconds := 0 },
     { scheme := [], network := "eip155:2".toList, maxAmountRequired := [],
       payTo := [], asset := [], maxTimeoutSeconds := 0 },
     { scheme := [], network := "eip155:1".toList, maxAmountRequired := [],
       payTo := [], asset := [], maxTimeoutSeconds := 0 }]
    (some { chainId := 1, name := [], usdcAddress := [], rpcUrl := [],
            blockExplorer := [] }) none "0xabc".toList
    [{ status := .success, result := some (.big 5), error := none },
     { status := .success, result := some (.num 6), error := none },
     { status := .failure, result := none, error := some (some "boom".toList) },
     { status := .failure, result := none, error := none }]).1

/-! ### Properties of payment-header serialization -/

/-- The code's `JSON.stringify` of the payment payload object equals the
spec's payment-header text, for all field values. -/
theorem jsonStringify_paymentPayload (x402Version : Int)
    (scheme network signature fromAddr toAddr : Str)
    (value validAfter validBefore : Int) (nonce : Str) :
    jsonStringify (paymentPayloadJson x402Version scheme network signature
        fromAddr toAddr value validAfter validBefore nonce) =
      specPaymentJson x402Version scheme network signature fromAddr toAddr
        value validAfter validBefore nonce := by
  simp [jsonStringify, jsonFields, paymentPayloadJson,
    specPaymentJson, List.append_assoc]

/-- `Headers.set` then `get` of the same (case-insensitive) name returns the
value just set. -/
theorem headersGet_headersSet_same (hs : HeaderMap) (k v : Str) :
    headersGet (headersSet hs k v) k = some v := by
  unfold headersSet headersGet
  by_cases hany : hs.any (fun p => p.1 = strLower k)
  · rw [if_pos hany]
    induction hs with
    | nil => simp at hany
    | cons p t ih =>
      by_cases hp : p.1 = strLower k
      · simp only [List.map_cons, List.find?]
        simp only [if_pos hp]
        simp [hp]
      · simp only [List.map_cons, List.find?]
        simp only [if_neg hp]
        have : (decide (p.1 = strLower k)) = false := by simp [hp]
        simp only [this]
        have hany' : t.any (fun p => p.1 = strLower k) := by
          simp only [List.any_cons, Bool.or_eq_true] at hany
          rcases hany with h | h
          · exact absurd (by simpa using h) hp
          · exact h
        exact ih hany'
  · rw [if_neg hany]
    induction hs with
    | nil => simp [List.find?]
    | cons p t ih =>
      simp only [List.any_cons, Bool.or_eq_true, not_or] at hany
      simp only [List.cons_append, List.find?]
      have : (decide (p.1 = strLower k)) = false := by
        simpa using hany.1
      simp only [this]
      exact ih (by simpa using hany.2)

/-- `Headers.set` leaves every other (case-insensitive) name unchanged. -/
theorem headersGet_headersSet_other (hs : HeaderMap) (k v k2 : Str)
    (h : strLower k2 ≠ strLower k) :
    headersGet (headersSet hs k v) k2 = headersGet hs k2 := by
  unfold headersSet headersGet
  by_cases hany : hs.any (fun p => p.1 = strLower k)
  · rw [if_pos hany]
    clear hany
    induction hs with
    | nil => rfl
    | cons p t ih =>
      simp only [List.map_cons, List.find?]
      by_cases hp : p.1 = strLower k
      · simp only [if_pos hp]
        have h1 : (decide ((p.1, v).1 = strLower k2)) = false :=
          decide_eq_false (fun hc => h (hc.symm.trans hp))
        have h1b : (decide (p.1 = strLower k2)) = false :=
          decide_eq_false (fun hc => h (hc.symm.trans hp))
        simp only [h1, h1b]
        exact ih
      · simp only [if_neg hp]
        by_cases hp2 : p.1 = strLower k2
        · have h2 : (decide (p.1 = strLower k2)) = true := by simp [hp2]
          simp only [h2]
        · have h2 : (decide (p.1 = strLower k2)) = false := by simp [hp2]
          simp only [h2]
          exact ih
  · rw [if_neg hany]
    clear hany
    induction hs with
    | nil =>
      simp only [List.nil_append, List.find?]
      have h1 : (decide (strLower k = strLower k2)) = false := by
        simp only [decide_eq_false_iff_not]
        exact fun hc => h hc.symm
      simp only [h1]
    | cons p t ih =>
      simp only [List.cons_append, List.find?]
      by_cases hp2 : p.1 = strLower k2
      · have h2 : (decide (p.1 = strLower k2)) = true := by simp [hp2]
        simp only [h2]
      · have h2 : (decide (p.1 = strLower k2)) = false := by simp [hp2]
        simp only [h2]
        exact ih

/-- C4: for every successful submission, the payment header equals the
base64 encoding of the spec's JSON text (keys in order, numeric fields as
decimal strings), the same string is attached under both the
`X-PAYMENT-SIGNATURE` and `PAYMENT-SIGNATURE` header names, and `Accept` is
set to `application/json`. -/
theorem signPayment_header_serialization (x402Version : Int)
    (scheme network signature fromAddr toAddr : Str)
    (value validAfter validBefore : Int) (nonce : Str) (initHeaders : HeaderMap)
    (hdr : Str) (headers : HeaderMap)
    (h : buildPaymentSubmission x402Version scheme network signature fromAddr
        toAddr value validAfter validBefore nonce initHeaders =
      some (hdr, headers)) :
    hdr = base64Encode ((specPaymentJson x402Version scheme network signature
        fromAddr toAddr value validAfter validBefore nonce).map Char.toNat) ∧
    headersGet headers "X-PAYMENT-SIGNATURE".toList = some hdr ∧
    headersGet headers "PAYMENT-SIGNATURE".toList = some hdr ∧
    headersGet headers "Accept".toList = some "application/json".toList := by
  simp only [buildPaymentSubmission] at h
  cases henc : encodeBase64Json (paymentPayloadJson x402Version scheme network
      signature fromAddr toAddr value validAfter validBefore nonce) with
  | none =>
    rw [henc] at h
    exact absurd h (by simp)
  | some ph =>
    rw [henc] at h
    simp only [Option.some_inj, Prod.mk.injEq] at h
    obtain ⟨hph, hhd⟩ := h
    subst hph
    subst hhd
    refine ⟨?_, ?_, ?_, ?_⟩
    · unfold encodeBase64Json btoa at henc
      by_cases hall : (jsonStringify (paymentPayloadJson x402Version scheme
          network signature fromAddr toAddr value validAfter validBefore
          nonce)).all (fun c => c.toNat < 256)
      · rw [if_pos hall, Option.some_inj] at henc
        rw [← henc, jsonStringify_paymentPayload]
      · rw [if_neg hall] at henc
        exact absurd henc (by simp)
    · rw [headersGet_headersSet_other _ _ _ _ (by decide),
        headersGet_headersSet_other _ _ _ _ (by decide),
        headersGet_headersSet_same]
    · rw [headersGet_headersSet_other _ _ _ _ (by decide),
        headersGet_headersSet_same]
    · rw [headersGet_headersSet_same]

set_option maxRecDepth 100000 in
/-- Witness for `signPayment_header_serialization` at a concrete submission
(every string field a single character, `x402Version = 2`): the produced
header equals the base64 of the spec's JSON text. -/
theorem signPayment_header_serialization_witness :
    "eyJ4NDAyVmVyc2lvbiI6Miwic2NoZW1lIjoieCIsIm5ldHdvcmsiOiJuIiwicGF5bG9hZCI6eyJzaWduYXR1cmUiOiJzIiwiYXV0aG9yaXphdGlvbiI6eyJmcm9tIjoiZiIsInRvIjoidCIsInZhbHVlIjoiMSIsInZhbGlkQWZ0ZXIiOiIyIiwidmFsaWRCZWZvcmUiOiIzIiwibm9uY2UiOiJ6In19fQ==".toList =
      base64Encode ((specPaymentJson 2 "x".toList "n".toList "s".toList
          "f".toList "t".toList 1 2 3 "z".toList).map Char.toNat) :=
  (signPayment_header_serialization 2 "x".toList "n".toList "s".toList
    "f".toList "t".toList 1 2 3 "z".toList []
    "eyJ4NDAyVmVyc2lvbiI6Miwic2NoZW1lIjoieCIsIm5ldHdvcmsiOiJuIiwicGF5bG9hZCI6eyJzaWduYXR1cmUiOiJzIiwiYXV0aG9yaXphdGlvbiI6eyJmcm9tIjoiZiIsInRvIjoidCIsInZhbHVlIjoiMSIsInZhbGlkQWZ0ZXIiOiIyIiwidmFsaWRCZWZvcmUiOiIzIiwibm9uY2UiOiJ6In19fQ==".toList
    [("x-payment-signature".toList,
      "eyJ4NDAyVmVyc2lvbiI6Miwic2NoZW1lIjoieCIsIm5ldHdvcmsiOiJuIiwicGF5bG9hZCI6eyJzaWduYXR1cmUiOiJzIiwiYXV0aG9yaXphdGlvbiI6eyJmcm9tIjoiZiIsInRvIjoidCIsInZhbHVlIjoiMSIsInZhbGlkQWZ0ZXIiOiIyIiwidmFsaWRCZWZvcmUiOiIzIiwibm9uY2UiOiJ6In19fQ==".toList),
     ("payment-signature".toList,
      "eyJ4NDAyVmVyc2lvbiI6Miwic2NoZW1lIjoieCIsIm5ldHdvcmsiOiJuIiwicGF5bG9hZCI6eyJzaWduYXR1cmUiOiJzIiwiYXV0aG9yaXphdGlvbiI6eyJmcm9tIjoiZiIsInRvIjoidCIsInZhbHVlIjoiMSIsInZhbGlkQWZ0ZXIiOiIyIiwidmFsaWRCZWZvcmUiOiIzIiwibm9uY2UiOiJ6In19fQ==".toList),
     ("accept".toList, "application/json".toList)] (by decide)).1

/-- The legacy component's `JSON.stringify` of its payment payload equals the
legacy payload text, for all field values and every embedded
`accepted`/`resource` object. -/
theorem jsonStringify_legacyPayload (signature fromAddr toAddr : Str)
    (value validAfter validBefore : Int) (nonce : Str) (accepted : Json)
    (resource : Option Json) :
    jsonStringify (legacyPaymentPayloadJson signature fromAddr toAddr value
        validAfter validBefore nonce accepted resource) =
      specLegacyPaymentJson signature fromAddr toAddr value validAfter
        validBefore nonce accepted resource := by
  cases resource with
  | none =>
    simp [jsonStringify, jsonFields, legacyPaymentPayloadJson,
      specLegacyPaymentJson, List.append_assoc]
  | some r =>
    simp [jsonStringify, jsonFields, legacyPaymentPayloadJson,
      specLegacyPaymentJson, List.append_assoc]

set_option maxRecDepth 100000 in
/-- claim C4 counterexample: the other submission path the claim cites — the
legacy `X402Paywall.signPayment` in `Paywall.tsx` — successfully produces a
payment header, but that header is not the base64 of the claimed
`(x402Version, scheme, network, payload)` JSON shape, even when the embedded
requirement carries those very `scheme`/`network` values and the claimed
version `2`: the legacy payload hard-codes `x402Version: 2` and embeds
`accepted`/`resource` instead of top-level `scheme`/`network` keys. -/
theorem signPayment_header_shape_counterexample :
    (buildPaymentSubmissionLegacy "s".toList "f".toList "t".toList 1 2 3
        "z".toList
        (.jobj [("scheme".toList, .jstr "exact".toList),
                ("network".toList, .jstr "eip155:1".toList)]) none
        []).isSome = true ∧
    (buildPaymentSubmissionLegacy "s".toList "f".toList "t".toList 1 2 3
        "z".toList
        (.jobj [("scheme".toList, .jstr "exact".toList),
                ("network".toList, .jstr "eip155:1".toList)]) none
        []).map Prod.fst ≠
      some (base64Encode ((specPaymentJson 2 "exact".toList
          "eip155:1".toList "s".toList "f".toList "t".toList 1 2 3
          "z".toList).map Char.toNat)) := by
  decide

/-- C4 (amended): the two submission paths serialize differently, and each is
characterized exactly.  (1) In the hooks implementation
(`paywall-hooks.ts signPayment`), every successful submission's header equals
base64 of the JSON object `(x402Version, scheme, network, payload)` with the
authorization's numeric fields as decimal strings — the shape the original
claim states.  (2) In the legacy `X402Paywall` component (`Paywall.tsx`),
every successful submission's header instead equals base64 of
`(x402Version: 2, payload, accepted, resource?)`, with no top-level
`scheme`/`network` keys.  On both paths the same header string is attached
under both `X-PAYMENT-SIGNATURE` and `PAYMENT-SIGNATURE` with
`Accept: application/json`. -/
theorem paymentHeader_serialization_amended :
    (∀ (x402Version : Int) (scheme network signature fromAddr toAddr : Str)
       (value validAfter validBefore : Int) (nonce : Str)
       (initHeaders : HeaderMap) (hdr : Str) (headers : HeaderMap),
       buildPaymentSubmission x402Version scheme network signature fromAddr
           toAddr value validAfter validBefore nonce initHeaders =
         some (hdr, headers) →
       hdr = base64Encode ((specPaymentJson x402Version scheme network
           signature fromAddr toAddr value validAfter validBefore
           nonce).map Char.toNat) ∧
       headersGet headers "X-PAYMENT-SIGNATURE".toList = some hdr ∧
       headersGet headers "PAYMENT-SIGNATURE".toList = some hdr ∧
       headersGet headers "Accept".toList = some "application/json".toList) ∧
    (∀ (signature fromAddr toAddr : Str) (value validAfter validBefore : Int)
       (nonce : Str) (accepted : Json) (resource : Option Json)
       (initHeaders : HeaderMap) (hdr : Str) (headers : HeaderMap),
       buildPaymentSubmissionLegacy signature fromAddr toAddr value
           validAfter validBefore nonce accepted resource initHeaders =
         some (hdr, headers) →
       hdr = base64Encode ((specLegacyPaymentJson signature fromAddr toAddr
           value validAfter validBefore nonce accepted resource).map
           Char.toNat) ∧
       headersGet headers "X-PAYMENT-SIGNATURE".toList = some hdr ∧
       headersGet headers "PAYMENT-SIGNATURE".toList = some hdr ∧
       headersGet headers "Accept".toList = some "application/json".toList) := by
  constructor
  · intro x402Version scheme network signature fromAddr toAddr value
      validAfter validBefore nonce initHeaders hdr headers h
    exact signPayment_header_serialization x402Version scheme network
      signature fromAddr toAddr value validAfter validBefore nonce
      initHeaders hdr headers h
  · intro signature fromAddr toAddr value validAfter validBefore nonce
      accepted resource initHeaders hdr headers h
    simp only [buildPaymentSubmissionLegacy] at h
    cases henc : encodeBase64Json (legacyPaymentPayloadJson signature fromAddr
        toAddr value validAfter validBefore nonce accepted resource) with
    | none =>
      rw [henc] at h
      exact absurd h (by simp)
    | some ph =>
      rw [henc] at h
      simp only [Option.some_inj, Prod.mk.injEq] at h
      obtain ⟨hph, hhd⟩ := h
      subst hph
      subst hhd
      refine ⟨?_, ?_, ?_, ?_⟩
      · unfold encodeBase64Json btoa at henc
        by_cases hall : (jsonStringify (legacyPaymentPayloadJson signature
            fromAddr toAddr value validAfter validBefore nonce accepted
            resource)).all (fun c => c.toNat < 256)
        · rw [if_pos hall, Option.some_inj] at henc
          rw [← henc, jsonStringify_legacyPayload]
        · rw [if_neg hall] at henc
          exact absurd henc (by simp)
      · rw [headersGet_headersSet_other _ _ _ _ (by decide),
          headersGet_headersSet_other _ _ _ _ (by decide),
          headersGet_headersSet_same]
      · rw [headersGet_headersSet_other _ _ _ _ (by decide),
          headersGet_headersSet_same]
      · rw [headersGet_headersSet_same]

/-- claim C7 counterexample: for the one-element accepts list and the
out-of-range index 5, the legacy `X402Paywall` selection (`accepts[5]`)
selects no requirement — there is no fall back to `accepts[0]` on that cited
path, unlike `pickRequirement`. -/
theorem requirementSelection_fallback_counterexample :
    x402PaywallRequirement
        [{ scheme := ['a'], network := [], maxAmountRequired := [],
           payTo := [], asset := [], maxTimeoutSeconds := 0 }] 5 = none ∧
    pickRequirement
        [{ scheme := ['a'], network := [], maxAmountRequired := [],
           payTo := [], asset := [], maxTimeoutSeconds := 0 }] 5 =
      some { scheme := ['a'], network := [], maxAmountRequired := [],
             payTo := [], asset := [], maxTimeoutSeconds := 0 } := by
  decide

/-- C7 (amended): the two requirement-selection paths differ on out-of-range
indices.  `pickRequirement` (`paywall-helpers.ts`) behaves as the original
claim states: `accepts[i]` for an in-range index, fall back to `accepts[0]`
for an out-of-range index on a non-empty list, nothing for an empty list.
The legacy `X402Paywall` component (`Paywall.tsx`) indexes `accepts`
directly: it agrees on in-range indices, but an out-of-range index selects no
requirement (`undefined`) instead of falling back to `accepts[0]`. -/
theorem requirementSelection_spec :
    (∀ (accepts : List X402PaymentRequirement) (i : Int),
       accepts = [] → pickRequirement accepts i = none) ∧
    (∀ (accepts : List X402PaymentRequirement) (i : Int),
       0 ≤ i → i < accepts.length →
       pickRequirement accepts i = accepts[i.toNat]? ∧
         (accepts[i.toNat]?).isSome = true) ∧
    (∀ (accepts : List X402PaymentRequirement) (i : Int),
       accepts ≠ [] → (i < 0 ∨ (accepts.length : Int) ≤ i) →
       pickRequirement accepts i = accepts[0]? ∧
         (accepts[0]?).isSome = true) ∧
    (∀ (accepts : List X402PaymentRequirement) (i : Int),
       0 ≤ i → i < accepts.length →
       x402PaywallRequirement accepts i = accepts[i.toNat]? ∧
         (accepts[i.toNat]?).isSome = true) ∧
    (∀ (accepts : List X402PaymentRequirement) (i : Int),
       (i < 0 ∨ (accepts.length : Int) ≤ i) →
       x402PaywallRequirement accepts i = none) := by
  refine ⟨pickRequirement_spec.1, pickRequirement_spec.2.1,
    pickRequirement_spec.2.2, ?_, ?_⟩
  · intro accepts i h0 hlen
    have hidx : i.toNat < accepts.length := by omega
    unfold x402PaywallRequirement
    rw [if_pos ⟨h0, hlen⟩]
    exact ⟨rfl, by rw [List.getElem?_eq_getElem hidx]; rfl⟩
  · intro accepts i hrange
    have hcond : ¬(0 ≤ i ∧ i < accepts.length) := by omega
    unfold x402PaywallRequirement
    rw [if_neg hcond]

/-- Witness for `requirementSelection_spec` on a concrete two-element list:
empty-list selection, in-range index 1 and out-of-range index 5 on both
paths. -/
theorem requirementSelection_spec_witness :
    pickRequirement [] 0 = none ∧
    pickRequirement
        [{ scheme := ['a'], network := [], maxAmountRequired := [],
           payTo := [], asset := [], maxTimeoutSeconds := 0 },
         { scheme := ['b'], network := [], maxAmountRequired := [],
           payTo := [], asset := [], maxTimeoutSeconds := 0 }] 5 =
      some { scheme := ['a'], network := [], maxAmountRequired := [],
             payTo := [], asset := [], maxTimeoutSeconds := 0 } ∧
    x402PaywallRequirement
        [{ scheme := ['a'], network := [], maxAmountRequired := [],
           payTo := [], asset := [], maxTimeoutSeconds := 0 },
         { scheme := ['b'], network := [], maxAmountRequired := [],
           payTo := [], asset := [], maxTimeoutSeconds := 0 }] 1 =
      some { scheme := ['b'], network := [], maxAmountRequired := [],
             payTo := [], asset := [], maxTimeoutSeconds := 0 } ∧
    x402PaywallRequirement
        [{ scheme := ['a'], network := [], maxAmountRequired := [],
           payTo := [], asset := [], maxTimeoutSeconds := 0 },
         { scheme := ['b'], network := [], maxAmountRequired := [],
           payTo := [], asset := [], maxTimeoutSeconds := 0 }] 5 = none := by
  refine ⟨requirementSelection_spec.1 [] 0 rfl, ?_, ?_,
    requirementSelection_spec.2.2.2.2
      [{ scheme := ['a'], network := [], maxAmountRequired := [],
         payTo := [], asset := [], maxTimeoutSeconds := 0 },
       { scheme := ['b'], network := [], maxAmountRequired := [],
         payTo := [], asset := [], maxTimeoutSeconds := 0 }] 5 (by decide)⟩
  · have := (requirementSelection_spec.2.2.1
      [{ scheme := ['a'], network := [], maxAmountRequired := [],
         payTo := [], asset := [], maxTimeoutSeconds := 0 },
       { scheme := ['b'], network := [], maxAmountRequired := [],
         payTo := [], asset := [], maxTimeoutSeconds := 0 }] 5
      (by decide) (by decide)).1
    rw [this]
    decide
  · have := (requirementSelection_spec.2.2.2.1
      [{ scheme := ['a'], network := [], maxAmountRequired := [],
         payTo := [], asset := [], maxTimeoutSeconds := 0 },
       { scheme := ['b'], network := [], maxAmountRequired := [],
         payTo := [], asset := [], maxTimeoutSeconds := 0 }] 1
      (by decide) (by decide)).1
    rw [this]
    decide

set_option maxRecDepth 100000 in
/-- Witness for `paymentHeader_serialization_amended`, exercising both
submission paths at concrete inputs: the hooks path produces the base64 of
the claimed `(x402Version, scheme, network, payload)` text, the legacy path
the base64 of the `(x402Version: 2, payload, accepted)` text. -/
theorem paymentHeader_serialization_amended_witness :
    "eyJ4NDAyVmVyc2lvbiI6Miwic2NoZW1lIjoieCIsIm5ldHdvcmsiOiJuIiwicGF5bG9hZCI6eyJzaWduYXR1cmUiOiJzIiwiYXV0aG9yaXphdGlvbiI6eyJmcm9tIjoiZiIsInRvIjoidCIsInZhbHVlIjoiMSIsInZhbGlkQWZ0ZXIiOiIyIiwidmFsaWRCZWZvcmUiOiIzIiwibm9uY2UiOiJ6In19fQ==".toList =
      base64Encode ((specPaymentJson 2 "x".toList "n".toList "s".toList
          "f".toList "t".toList 1 2 3 "z".toList).map Char.toNat) ∧
    "eyJ4NDAyVmVyc2lvbiI6MiwicGF5bG9hZCI6eyJzaWduYXR1cmUiOiJzIiwiYXV0aG9yaXphdGlvbiI6eyJmcm9tIjoiZiIsInRvIjoidCIsInZhbHVlIjoiMSIsInZhbGlkQWZ0ZXIiOiIyIiwidmFsaWRCZWZvcmUiOiIzIiwibm9uY2UiOiJ6In19LCJhY2NlcHRlZCI6eyJzY2hlbWUiOiJleGFjdCIsIm5ldHdvcmsiOiJlaXAxNTU6MSJ9fQ==".toList =
      base64Encode ((specLegacyPaymentJson "s".toList "f".toList "t".toList
          1 2 3 "z".toList
          (.jobj [("scheme".toList, .jstr "exact".toList),
                  ("network".toList, .jstr "eip155:1".toList)])
          none).map Char.toNat) :=
  ⟨(paymentHeader_serialization_amended.1 2 "x".toList "n".toList "s".toList
      "f".toList "t".toList 1 2 3 "z".toList []
      "eyJ4NDAyVmVyc2lvbiI6Miwic2NoZW1lIjoieCIsIm5ldHdvcmsiOiJuIiwicGF5bG9hZCI6eyJzaWduYXR1cmUiOiJzIiwiYXV0aG9yaXphdGlvbiI6eyJmcm9tIjoiZiIsInRvIjoidCIsInZhbHVlIjoiMSIsInZhbGlkQWZ0ZXIiOiIyIiwidmFsaWRCZWZvcmUiOiIzIiwibm9uY2UiOiJ6In19fQ==".toList
      [("x-payment-signature".toList,
        "eyJ4NDAyVmVyc2lvbiI6Miwic2NoZW1lIjoieCIsIm5ldHdvcmsiOiJuIiwicGF5bG9hZCI6eyJzaWduYXR1cmUiOiJzIiwiYXV0aG9yaXphdGlvbiI6eyJmcm9tIjoiZiIsInRvIjoidCIsInZhbHVlIjoiMSIsInZhbGlkQWZ0ZXIiOiIyIiwidmFsaWRCZWZvcmUiOiIzIiwibm9uY2UiOiJ6In19fQ==".toList),
       ("payment-signature".toList,
        "eyJ4NDAyVmVyc2lvbiI6Miwic2NoZW1lIjoieCIsIm5ldHdvcmsiOiJuIiwicGF5bG9hZCI6eyJzaWduYXR1cmUiOiJzIiwiYXV0aG9yaXphdGlvbiI6eyJmcm9tIjoiZiIsInRvIjoidCIsInZhbHVlIjoiMSIsInZhbGlkQWZ0ZXIiOiIyIiwidmFsaWRCZWZvcmUiOiIzIiwibm9uY2UiOiJ6In19fQ==".toList),
       ("accept".toList, "application/json".toList)] (by decide)).1,
   (paymentHeader_serialization_amended.2 "s".toList "f".toList "t".toList
      1 2 3 "z".toList
      (.jobj [("scheme".toList, .jstr "exact".toList),
              ("network".toList, .jstr "eip155:1".toList)])
      none []
      "eyJ4NDAyVmVyc2lvbiI6MiwicGF5bG9hZCI6eyJzaWduYXR1cmUiOiJzIiwiYXV0aG9yaXphdGlvbiI6eyJmcm9tIjoiZiIsInRvIjoidCIsInZhbHVlIjoiMSIsInZhbGlkQWZ0ZXIiOiIyIiwidmFsaWRCZWZvcmUiOiIzIiwibm9uY2UiOiJ6In19LCJhY2NlcHRlZCI6eyJzY2hlbWUiOiJleGFjdCIsIm5ldHdvcmsiOiJlaXAxNTU6MSJ9fQ==".toList
      [("x-payment-signature".toList,
        "eyJ4NDAyVmVyc2lvbiI6MiwicGF5bG9hZCI6eyJzaWduYXR1cmUiOiJzIiwiYXV0aG9yaXphdGlvbiI6eyJmcm9tIjoiZiIsInRvIjoidCIsInZhbHVlIjoiMSIsInZhbGlkQWZ0ZXIiOiIyIiwidmFsaWRCZWZvcmUiOiIzIiwibm9uY2UiOiJ6In19LCJhY2NlcHRlZCI6eyJzY2hlbWUiOiJleGFjdCIsIm5ldHdvcmsiOiJlaXAxNTU6MSJ9fQ==".toList),
       ("payment-signature".toList,
        "eyJ4NDAyVmVyc2lvbiI6MiwicGF5bG9hZCI6eyJzaWduYXR1cmUiOiJzIiwiYXV0aG9yaXphdGlvbiI6eyJmcm9tIjoiZiIsInRvIjoidCIsInZhbHVlIjoiMSIsInZhbGlkQWZ0ZXIiOiIyIiwidmFsaWRCZWZvcmUiOiIzIiwibm9uY2UiOiJ6In19LCJhY2NlcHRlZCI6eyJzY2hlbWUiOiJleGFjdCIsIm5ldHdvcmsiOiJlaXAxNTU6MSJ9fQ==".toList),
       ("accept".toList, "application/json".toList)] (by decide)).1⟩

end Paywall402
